import Mathlib

/-!
# lzip: the Lua binding of a zip library

A shallow embedding of `lzip.c` (the file `src/src/lzip.c`; `src/lzip.c` holds the
same functions and differs in comments, in the text of the usage message of
`lzip_open` and in one debugging `printf`).

The binding owns no archive logic: every function reads its arguments from the
Lua stack, calls the zip library and pushes a result.  The embedding therefore has
three parts:

* the Lua stack, a list of `LuaValue`, index 1 first; strings are lists of
  characters that may contain NUL, and a `const char *` read from one denotes the
  characters before the first NUL (`c_str`);
* the zip library and the Lua coercions, which `lzip.c` links against and does not
  define: they are the fields of `Foreign`; a library answer may depend on all
  calls made so far, so the history of calls is the library state;
* each C function, as a function from the history and the stack to a `Run`: what
  the function did to the caller (raised an error, or returned a count of results
  with the final stack) and the history extended by the library calls it made.
-/

namespace Lzip

/-! ## Lua values and C strings -/

/-- The bytes of a Lua string; unlike a C string it may contain NUL. -/
abbrev LuaString := List Char

/-- The terminator of a C string. -/
def NUL : Char := Char.ofNat 0

/-- An address; `NULL` is 0. -/
abbrev Ptr := Nat

/-- The C string a `const char *` into a Lua string denotes: the characters
before the first NUL (Lua keeps a NUL after the last byte of every string). -/
def c_str (s : LuaString) : LuaString := s.takeWhile (fun c => c != NUL)

/-- The function `strlen` on a pointer into the Lua string `s`. -/
def strlen (s : LuaString) : Nat := (c_str s).length

/-- The character `s[0]` of a pointer into the Lua string `s`: its first byte, or
the terminating NUL when the string is empty. -/
def char_at_0 (s : LuaString) : Char := s.headD NUL

/-- A value on the Lua stack.  Numbers are the integral ones.  A table is a
reference (its entries live in the table store passed to `lzipFiles`); a userdata
carries the name of its metatable, if it has one, and the `zip_t` field of the
`lzip_data` it holds; `other` stands for the remaining reference types. -/
inductive LuaValue
  | nil
  | boolean (b : Bool)
  | number (n : Int)
  | string (s : LuaString)
  | table (id : Nat)
  | userdata (tname : Option String) (zip_t : Ptr)
  | other (id : Nat)
  deriving DecidableEq, Repr

/-- An error raised through `luaL_error` (a message) or by one of the
`luaL_check*` functions (the number of the offending argument). -/
inductive LuaError
  | msg (text : String)
  | bad_argument (narg : Nat)
  deriving DecidableEq, Repr

/-- What a C function does to its caller: it raises, or it returns the `int`
that Lua reads as the number of results, leaving `stack`. -/
inductive Outcome
  | raised (e : LuaError)
  | returned (nresults : Int) (stack : List LuaValue)
  deriving DecidableEq, Repr

/-! ## The zip library -/

/-- A call of a function of `zip.h`, with its arguments.  A name is the C string
passed, or `none` for `NULL`; `zip_entry_write` gets the Lua string its buffer
points into and the byte count. -/
inductive Call
  | zip_open (zipname : Option LuaString) (level : Int) (mode : Char)
  | zip_close (zip : Ptr)
  | zip_is64 (zip : Ptr)
  | zip_entry_open (zip : Ptr) (entryname : Option LuaString)
  | zip_entry_opencasesensitive (zip : Ptr) (entryname : Option LuaString)
  | zip_entry_openbyindex (zip : Ptr) (index : Int)
  | zip_entry_name (zip : Ptr)
  | zip_entry_isdir (zip : Ptr)
  | zip_entry_size (zip : Ptr)
  | zip_entry_uncomp_size (zip : Ptr)
  | zip_entry_comp_size (zip : Ptr)
  | zip_entry_crc32 (zip : Ptr)
  | zip_entry_write (zip : Ptr) (buf : LuaString) (bufsize : Nat)
  | zip_entry_fwrite (zip : Ptr) (filename : Option LuaString)
  | zip_entry_fread (zip : Ptr) (filename : Option LuaString)
  | zip_entry_close (zip : Ptr)
  | zip_entry_index (zip : Ptr)
  | zip_entries_total (zip : Ptr)
  deriving DecidableEq, Repr

/-- What `lzip.c` links against and does not define.
`ZIP_DEFAULT_COMPRESSION_LEVEL` is the constant of `zip.h`.  `zip_open` gives the
handle the library returns (0 for `NULL`), `status` the integer the binding
receives from every other function of `zip.h` (in the C type of the variable or
parameter that takes it), `zip_entry_name` the name or `NULL`; each may depend on
the calls made before.  `zip_strerror` maps a status to its message or `NULL`.
`number2str` and `str2number` are the coercions of Lua between numbers and
strings. -/
structure Foreign where
  ZIP_DEFAULT_COMPRESSION_LEVEL : Int
  zip_open : List Call → Option LuaString → Int → Char → Ptr
  status : List Call → Call → Int
  zip_entry_name : List Call → Ptr → Option LuaString
  zip_strerror : Int → Option LuaString
  number2str : Int → LuaString
  str2number : LuaString → Option Int

/-- The result of running a C function: its outcome and the history of library
calls after it. -/
structure Run where
  outcome : Outcome
  trace : List Call
  deriving DecidableEq, Repr

/-! ## Machine integers -/

/-- Conversion to `int` (32 bits, two's complement).  C defines the conversion of
a `lua_Number` only when the value is representable; the statements about the
level carry that range as a hypothesis. -/
def to_int (n : Int) : Int := (n + 2147483648) % 4294967296 - 2147483648

/-- Conversion to `long` (64 bits, two's complement, as on LP64 platforms). -/
def to_long (n : Int) : Int :=
  (n + 9223372036854775808) % 18446744073709551616 - 9223372036854775808

/-- Conversion to `size_t` (64 bits, unsigned, as on LP64 platforms). -/
def to_size_t (n : Int) : Nat := (n % 18446744073709551616).toNat

/-- The expression `x & 0xF` on an `int`: the low four bits of the two's
complement representation. -/
def and_0xF (x : Int) : Int := (((x % 4294967296).toNat &&& 0xF : Nat) : Int)

/-! ## The Lua API functions the binding uses -/

/-- The value at stack index `i` (1 is the first argument), if the index is at
most the top. -/
def lua_index (stack : List LuaValue) (i : Nat) : Option LuaValue :=
  if i = 0 then none else stack.get? (i - 1)

/-- The function `lua_gettop`. -/
def lua_gettop (stack : List LuaValue) : Nat := stack.length

/-- The function `lua_tostring` on a value: a string as it is, a number
converted, `NULL` for everything else. -/
def lua_tostring (X : Foreign) : Option LuaValue → Option LuaString
  | some (.string s) => some s
  | some (.number n) => some (X.number2str n)
  | _ => none

/-- The function `lua_tonumber` on a value: a number as it is, a string that
converts, nothing otherwise. -/
def lua_tonumber (X : Foreign) : Option LuaValue → Option Int
  | some (.number n) => some n
  | some (.string s) => X.str2number s
  | _ => none

/-- The function `lua_isstring`: true for a string or a number. -/
def lua_isstring : Option LuaValue → Bool
  | some (.string _) => true
  | some (.number _) => true
  | _ => false

/-- The function `lua_isnumber`: true for a number or a string that converts. -/
def lua_isnumber (X : Foreign) (v : Option LuaValue) : Bool :=
  (lua_tonumber X v).isSome

/-- The function `lua_istable`. -/
def lua_istable : Option LuaValue → Bool
  | some (.table _) => true
  | _ => false

/-- The function `luaL_checkstring` on argument `narg`: the string, or the error
it raises. -/
def luaL_checkstring (X : Foreign) (stack : List LuaValue) (narg : Nat) :
    Except LuaError LuaString :=
  match lua_tostring X (lua_index stack narg) with
  | some s => .ok s
  | none => .error (.bad_argument narg)

/-- The function `luaL_checknumber` on argument `narg`. -/
def luaL_checknumber (X : Foreign) (stack : List LuaValue) (narg : Nat) :
    Except LuaError Int :=
  match lua_tonumber X (lua_index stack narg) with
  | some n => .ok n
  | none => .error (.bad_argument narg)

/-- The function `lua_pushstring`: pushes the string, or nil for `NULL`. -/
def lua_pushstring (stack : List LuaValue) (s : Option LuaString) : List LuaValue :=
  match s with
  | some s => stack ++ [.string (c_str s)]
  | none => stack ++ [.nil]

/-- The function `lua_pushboolean`: true for every nonzero `int`. -/
def lua_pushboolean (stack : List LuaValue) (b : Int) : List LuaValue :=
  stack ++ [.boolean (b != 0)]

/-- The function `lua_pushnumber`. -/
def lua_pushnumber (stack : List LuaValue) (n : Int) : List LuaValue :=
  stack ++ [.number n]

/-! ## The binding -/

/-- The name under which `luaopen_lzip` registers the metatable of a handle. -/
def lzip_db : String := "lzip.db"

/-- The function `check_lzip`: `luaL_checkudata` with the name `lzip.db`; gives
the `zip_t` field of the `lzip_data` at argument `index`. -/
def check_lzip (stack : List LuaValue) (index : Nat) : Except LuaError Ptr :=
  match lua_index stack index with
  | some (.userdata (some tname) zip_t) =>
      if tname = lzip_db then .ok zip_t else .error (.bad_argument index)
  | _ => .error (.bad_argument index)

/-- The function `lzip_geterror`: pushes `zip_strerror(err)` and returns 1. -/
def lzip_geterror (X : Foreign) (stack : List LuaValue) (err : Int) : Outcome :=
  .returned 1 (lua_pushstring stack (X.zip_strerror err))

/-- The text of the usage error of `lzip_open` (in `src/lzip.c` it reads
`usage: zip_open( zipname, compressionlevel, mode)`). -/
def usage_message : String := "usage: open( zipname, compressionlevel, mode)"

/-- The text of the error for a mode that fails validation. -/
def mode_message : String := "Unrecognised archive access mode"

/-- The text of the error when the library returns `NULL`. -/
def open_message : String := "Unable to open archive."

/-- The function `lzip_open`. -/
def lzip_open (X : Foreign) (hist : List Call) (stack : List LuaValue) : Run :=
  if lua_gettop stack ≠ 3 then ⟨.raised (.msg usage_message), hist⟩ else
  match luaL_checkstring X stack 1 with
  | .error e => ⟨.raised e, hist⟩
  | .ok zipname =>
  match luaL_checknumber X stack 2 with
  | .error e => ⟨.raised e, hist⟩
  | .ok number =>
  match luaL_checkstring X stack 3 with
  | .error e => ⟨.raised e, hist⟩
  | .ok mode =>
    let compressionlevel := to_int number
    let compressionlevel :=
      if and_0xF compressionlevel > 9 then X.ZIP_DEFAULT_COMPRESSION_LEVEL
      else compressionlevel
    if strlen mode ≠ 1 then ⟨.raised (.msg mode_message), hist⟩ else
    if char_at_0 mode ≠ 'w' ∧ char_at_0 mode ≠ 'r' ∧ char_at_0 mode ≠ 'a'
        ∧ char_at_0 mode ≠ 'd' then
      ⟨.raised (.msg mode_message), hist⟩
    else
      let zip_t := X.zip_open hist (some (c_str zipname)) compressionlevel (char_at_0 mode)
      let hist1 := hist ++ [Call.zip_open (some (c_str zipname)) compressionlevel (char_at_0 mode)]
      if zip_t = 0 then ⟨.raised (.msg open_message), hist1⟩
      else ⟨.returned 1 (stack ++ [.userdata (some lzip_db) zip_t]), hist1⟩

/-- The run of `lzip_open` together with the number of userdata created during
it. -/
structure OpenRun where
  run : Run
  userdata_created : Nat
  deriving DecidableEq, Repr

/-- The function `lzip_open` once more, statement by statement, with a counter of
the calls of `lua_newuserdata`: the one call stands after the two checks of the
mode and before the call of `zip_open`, and the userdata exists from then on,
also when `zip_open` returns `NULL` and the error is raised. -/
def lzip_open_counting (X : Foreign) (hist : List Call) (stack : List LuaValue) : OpenRun :=
  let created := 0
  if lua_gettop stack ≠ 3 then ⟨⟨.raised (.msg usage_message), hist⟩, created⟩ else
  match luaL_checkstring X stack 1 with
  | .error e => ⟨⟨.raised e, hist⟩, created⟩
  | .ok zipname =>
  match luaL_checknumber X stack 2 with
  | .error e => ⟨⟨.raised e, hist⟩, created⟩
  | .ok number =>
  match luaL_checkstring X stack 3 with
  | .error e => ⟨⟨.raised e, hist⟩, created⟩
  | .ok mode =>
    let compressionlevel := to_int number
    let compressionlevel :=
      if and_0xF compressionlevel > 9 then X.ZIP_DEFAULT_COMPRESSION_LEVEL
      else compressionlevel
    if strlen mode ≠ 1 then ⟨⟨.raised (.msg mode_message), hist⟩, created⟩ else
    if char_at_0 mode ≠ 'w' ∧ char_at_0 mode ≠ 'r' ∧ char_at_0 mode ≠ 'a'
        ∧ char_at_0 mode ≠ 'd' then
      ⟨⟨.raised (.msg mode_message), hist⟩, created⟩
    else
      let created := created + 1
      let zip_t := X.zip_open hist (some (c_str zipname)) compressionlevel (char_at_0 mode)
      let hist1 := hist ++ [Call.zip_open (some (c_str zipname)) compressionlevel (char_at_0 mode)]
      if zip_t = 0 then ⟨⟨.raised (.msg open_message), hist1⟩, created⟩
      else ⟨⟨.returned 1 (stack ++ [.userdata (some lzip_db) zip_t]), hist1⟩, created⟩

/-- The function `lzip_close`: the field `zip_t` is read and never written. -/
def lzip_close (_X : Foreign) (hist : List Call) (stack : List LuaValue) : Run :=
  match check_lzip stack 1 with
  | .error e => ⟨.raised e, hist⟩
  | .ok zip_t =>
    if zip_t ≠ 0 then ⟨.returned 0 stack, hist ++ [Call.zip_close zip_t]⟩
    else ⟨.returned 0 stack, hist⟩

/-- The function `lzip__gc`: calls `lzip_close` and returns 0. -/
def lzip__gc (X : Foreign) (hist : List Call) (stack : List LuaValue) : Run :=
  match (lzip_close X hist stack).outcome with
  | .raised e => ⟨.raised e, (lzip_close X hist stack).trace⟩
  | .returned _ stack1 => ⟨.returned 0 stack1, (lzip_close X hist stack).trace⟩

/-- The function `lzip_is64`. -/
def lzip_is64 (X : Foreign) (hist : List Call) (stack : List LuaValue) : Run :=
  match check_lzip stack 1 with
  | .error e => ⟨.raised e, hist⟩
  | .ok zip_t =>
    ⟨.returned 1 (lua_pushboolean stack (X.status hist (Call.zip_is64 zip_t))),
      hist ++ [Call.zip_is64 zip_t]⟩

/-- The function `lzip_entry_open`: the status of the library is the value of the
`return` statement. -/
def lzip_entry_open (X : Foreign) (hist : List Call) (stack : List LuaValue) : Run :=
  match check_lzip stack 1 with
  | .error e => ⟨.raised e, hist⟩
  | .ok zip_t =>
  match luaL_checkstring X stack 2 with
  | .error e => ⟨.raised e, hist⟩
  | .ok entryname =>
    ⟨.returned (X.status hist (Call.zip_entry_open zip_t (some (c_str entryname)))) stack,
      hist ++ [Call.zip_entry_open zip_t (some (c_str entryname))]⟩

/-- The function `lzip_entry_opencasesensitive` (in `src/lzip.c` it also prints
the name on the standard output). -/
def lzip_entry_opencasesensitive (X : Foreign) (hist : List Call)
    (stack : List LuaValue) : Run :=
  match check_lzip stack 1 with
  | .error e => ⟨.raised e, hist⟩
  | .ok zip_t =>
  match luaL_checkstring X stack 2 with
  | .error e => ⟨.raised e, hist⟩
  | .ok entryname =>
    ⟨.returned
        (X.status hist (Call.zip_entry_opencasesensitive zip_t (some (c_str entryname))))
        stack,
      hist ++ [Call.zip_entry_opencasesensitive zip_t (some (c_str entryname))]⟩

/-- The function `lzip_entry_openbyindex`. -/
def lzip_entry_openbyindex (X : Foreign) (hist : List Call) (stack : List LuaValue) :
    Run :=
  match check_lzip stack 1 with
  | .error e => ⟨.raised e, hist⟩
  | .ok zip_t =>
  match luaL_checknumber X stack 2 with
  | .error e => ⟨.raised e, hist⟩
  | .ok number =>
    ⟨.returned (X.status hist (Call.zip_entry_openbyindex zip_t (to_long number))) stack,
      hist ++ [Call.zip_entry_openbyindex zip_t (to_long number)]⟩

/-- The function `lzip_entry_name`. -/
def lzip_entry_name (X : Foreign) (hist : List Call) (stack : List LuaValue) : Run :=
  match check_lzip stack 1 with
  | .error e => ⟨.raised e, hist⟩
  | .ok zip_t =>
    ⟨.returned 1 (lua_pushstring stack (X.zip_entry_name hist zip_t)),
      hist ++ [Call.zip_entry_name zip_t]⟩

/-- The function `lzip_entry_isdir`. -/
def lzip_entry_isdir (X : Foreign) (hist : List Call) (stack : List LuaValue) : Run :=
  match check_lzip stack 1 with
  | .error e => ⟨.raised e, hist⟩
  | .ok zip_t =>
    ⟨.returned 1 (lua_pushboolean stack (X.status hist (Call.zip_entry_isdir zip_t))),
      hist ++ [Call.zip_entry_isdir zip_t]⟩

/-- The function `lzip_entry_size`. -/
def lzip_entry_size (X : Foreign) (hist : List Call) (stack : List LuaValue) : Run :=
  match check_lzip stack 1 with
  | .error e => ⟨.raised e, hist⟩
  | .ok zip_t =>
    ⟨.returned 1 (lua_pushnumber stack (X.status hist (Call.zip_entry_size zip_t))),
      hist ++ [Call.zip_entry_size zip_t]⟩

/-- The function `lzip_entry_uncomp_size`. -/
def lzip_entry_uncomp_size (X : Foreign) (hist : List Call) (stack : List LuaValue) :
    Run :=
  match check_lzip stack 1 with
  | .error e => ⟨.raised e, hist⟩
  | .ok zip_t =>
    ⟨.returned 1 (lua_pushnumber stack (X.status hist (Call.zip_entry_uncomp_size zip_t))),
      hist ++ [Call.zip_entry_uncomp_size zip_t]⟩

/-- The function `lzip_entry_comp_size`. -/
def lzip_entry_comp_size (X : Foreign) (hist : List Call) (stack : List LuaValue) :
    Run :=
  match check_lzip stack 1 with
  | .error e => ⟨.raised e, hist⟩
  | .ok zip_t =>
    ⟨.returned 1 (lua_pushnumber stack (X.status hist (Call.zip_entry_comp_size zip_t))),
      hist ++ [Call.zip_entry_comp_size zip_t]⟩

/-- The function `lzip_entry_crc32`. -/
def lzip_entry_crc32 (X : Foreign) (hist : List Call) (stack : List LuaValue) : Run :=
  match check_lzip stack 1 with
  | .error e => ⟨.raised e, hist⟩
  | .ok zip_t =>
    ⟨.returned 1 (lua_pushnumber stack (X.status hist (Call.zip_entry_crc32 zip_t))),
      hist ++ [Call.zip_entry_crc32 zip_t]⟩

/-- The function `lzip_entry_write`: the byte count is the third argument. -/
def lzip_entry_write (X : Foreign) (hist : List Call) (stack : List LuaValue) : Run :=
  match check_lzip stack 1 with
  | .error e => ⟨.raised e, hist⟩
  | .ok zip_t =>
  match luaL_checkstring X stack 2 with
  | .error e => ⟨.raised e, hist⟩
  | .ok buf =>
  match luaL_checknumber X stack 3 with
  | .error e => ⟨.raised e, hist⟩
  | .ok number =>
    ⟨lzip_geterror X stack
        (X.status hist (Call.zip_entry_write zip_t buf (to_size_t number))),
      hist ++ [Call.zip_entry_write zip_t buf (to_size_t number)]⟩

/-- The function `lzip_entry_fwrite`. -/
def lzip_entry_fwrite (X : Foreign) (hist : List Call) (stack : List LuaValue) : Run :=
  match check_lzip stack 1 with
  | .error e => ⟨.raised e, hist⟩
  | .ok zip_t =>
  match luaL_checkstring X stack 2 with
  | .error e => ⟨.raised e, hist⟩
  | .ok filename =>
    ⟨lzip_geterror X stack
        (X.status hist (Call.zip_entry_fwrite zip_t (some (c_str filename)))),
      hist ++ [Call.zip_entry_fwrite zip_t (some (c_str filename))]⟩

/-- The function `lzip_entry_fread`: the library extracts the current entry into
the named file; the caller gets the message of the status. -/
def lzip_entry_fread (X : Foreign) (hist : List Call) (stack : List LuaValue) : Run :=
  match check_lzip stack 1 with
  | .error e => ⟨.raised e, hist⟩
  | .ok zip_t =>
  match luaL_checkstring X stack 2 with
  | .error e => ⟨.raised e, hist⟩
  | .ok filename =>
    ⟨lzip_geterror X stack
        (X.status hist (Call.zip_entry_fread zip_t (some (c_str filename)))),
      hist ++ [Call.zip_entry_fread zip_t (some (c_str filename))]⟩

/-- The function `lzip_entry_close`. -/
def lzip_entry_close (X : Foreign) (hist : List Call) (stack : List LuaValue) : Run :=
  match check_lzip stack 1 with
  | .error e => ⟨.raised e, hist⟩
  | .ok zip_t =>
    ⟨lzip_geterror X stack (X.status hist (Call.zip_entry_close zip_t)),
      hist ++ [Call.zip_entry_close zip_t]⟩

/-- The function `lzip_entry_index`. -/
def lzip_entry_index (X : Foreign) (hist : List Call) (stack : List LuaValue) : Run :=
  match check_lzip stack 1 with
  | .error e => ⟨.raised e, hist⟩
  | .ok zip_t =>
    ⟨.returned 1 (lua_pushnumber stack (X.status hist (Call.zip_entry_index zip_t))),
      hist ++ [Call.zip_entry_index zip_t]⟩

/-- The function `lzip_entries_total`. -/
def lzip_entries_total (X : Foreign) (hist : List Call) (stack : List LuaValue) : Run :=
  match check_lzip stack 1 with
  | .error e => ⟨.raised e, hist⟩
  | .ok zip_t =>
    ⟨.returned 1 (lua_pushnumber stack (X.status hist (Call.zip_entries_total zip_t))),
      hist ++ [Call.zip_entries_total zip_t]⟩

/-! ## Table traversal and `lzipFiles` -/

/-- The entries of a table, in the order `lua_next` visits them. -/
abbrev TableEntries := List (LuaValue × LuaValue)

/-- The answer of a table to "which entry follows this key". -/
inductive Following
  | invalid_key
  | finished
  | entry (k v : LuaValue)
  deriving DecidableEq, Repr

/-- The entry that follows `key` in the traversal: the first entry for nil,
otherwise the one after the entry whose key is `key`; a key that is not in the
table is invalid. -/
def table_next (t : TableEntries) (key : LuaValue) : Following :=
  match key with
  | .nil =>
    match t with
    | [] => .finished
    | (k, v) :: _ => .entry k v
  | _ =>
    match t.dropWhile (fun e => e.1 != key) with
    | [] => .invalid_key
    | [_] => .finished
    | _ :: (k, v) :: _ => .entry k v

/-- What `lua_next` does: it raises, or returns 0 or nonzero with a new stack. -/
inductive NextResult
  | error
  | zero (stack : List LuaValue)
  | nonzero (stack : List LuaValue)
  deriving DecidableEq, Repr

/-- The function `lua_next` on the table at `index`: the key is popped from the
top; when an entry follows, its key and its value are pushed. -/
def lua_next (tables : Nat → TableEntries) (stack : List LuaValue) (index : Nat) :
    NextResult :=
  match stack.getLast?, lua_index stack index with
  | some key, some (.table id) =>
    match table_next (tables id) key with
    | .invalid_key => .error
    | .finished => .zero stack.dropLast
    | .entry k v => .nonzero (stack.dropLast ++ [k, v])
  | _, _ => .error

/-- The text of the error `lua_next` raises for a key that is not in the table. -/
def next_message : String := "invalid key to 'next'"

/-- The function `lua_tointeger`: 0 when the value does not convert. -/
def lua_tointeger (X : Foreign) (v : Option LuaValue) : Int := (lua_tonumber X v).getD 0

/-- The `while` loop of `lzipFiles` and the `zip_close` after it.  The value is
popped only in the branch of `lua_isstring`.  The loop runs for at most `fuel`
calls of `lua_next`; `none` means they did not suffice. -/
def lzipFiles_loop (X : Foreign) (tables : Nat → TableEntries) (Zip : Ptr) :
    Nat → List Call → List LuaValue → Option Run
  | 0, _, _ => none
  | fuel + 1, hist, stack =>
    match lua_next tables stack 2 with
    | .error => some ⟨.raised (.msg next_message), hist⟩
    | .zero stack1 => some ⟨.returned 0 stack1, hist ++ [Call.zip_close Zip]⟩
    | .nonzero stack1 =>
      if lua_isstring stack1.getLast? then
        lzipFiles_loop X tables Zip fuel
          (hist ++ [Call.zip_entry_open Zip ((lua_tostring X stack1.getLast?).map c_str),
                    Call.zip_entry_fwrite Zip ((lua_tostring X stack1.getLast?).map c_str),
                    Call.zip_entry_close Zip])
          stack1.dropLast
      else
        lzipFiles_loop X tables Zip fuel hist stack1

/-- The function `lzipFiles`, registered as `compress_files`. -/
def lzipFiles (X : Foreign) (tables : Nat → TableEntries) (fuel : Nat) (hist : List Call)
    (stack : List LuaValue) : Option Run :=
  let CompressionLevel :=
    if lua_isnumber X (lua_index stack 3) then to_int (lua_tointeger X (lua_index stack 3))
    else X.ZIP_DEFAULT_COMPRESSION_LEVEL
  if lua_istable (lua_index stack 2) then
    lzipFiles_loop X tables
      (X.zip_open hist ((lua_tostring X (lua_index stack 1)).map c_str) CompressionLevel 'w')
      fuel
      (hist ++ [Call.zip_open ((lua_tostring X (lua_index stack 1)).map c_str)
                  CompressionLevel 'w'])
      (stack ++ [.nil])
  else some ⟨.returned 0 stack, hist⟩

/-! ## The registration tables -/

/-- The C functions of `lzip.c` that are registered with Lua. -/
inductive CFunction
  | lzip_open
  | lzipFiles
  | lzip_close
  | lzip_is64
  | lzip_entry_opencasesensitive
  | lzip_entry_openbyindex
  | lzip_entry_index
  | lzip_entry_open
  | lzip_entry_name
  | lzip_entry_isdir
  | lzip_entry_size
  | lzip_entry_uncomp_size
  | lzip_entry_comp_size
  | lzip_entry_crc32
  | lzip_entry_close
  | lzip_entries_total
  | lzip_entry_fwrite
  | lzip_entry_fread
  | lzip_entry_write
  | lzip__gc
  deriving DecidableEq, Repr

/-- The array `lzip_method_map`: the methods of a handle. -/
def lzip_method_map : List (String × CFunction) :=
  [("close", .lzip_close),
   ("is64", .lzip_is64),
   ("entry_opencasesensitive", .lzip_entry_opencasesensitive),
   ("entry_openbyindex", .lzip_entry_openbyindex),
   ("entry_index", .lzip_entry_index),
   ("entry_open", .lzip_entry_open),
   ("entry_name", .lzip_entry_name),
   ("entry_isdir", .lzip_entry_isdir),
   ("entry_size", .lzip_entry_size),
   ("entry_uncomp_size", .lzip_entry_uncomp_size),
   ("entry_comp_size", .lzip_entry_comp_size),
   ("entry_crc32", .lzip_entry_crc32),
   ("entry_close", .lzip_entry_close),
   ("entries_total", .lzip_entries_total),
   ("entry_fwrite", .lzip_entry_fwrite),
   ("entry_fread", .lzip_entry_fread),
   ("entry_write", .lzip_entry_write),
   ("__gc", .lzip__gc)]

/-- The array `lzip_module`: the functions of the module. -/
def lzip_module : List (String × CFunction) :=
  [("open", .lzip_open),
   ("compress_files", .lzipFiles)]

/-- The body of a registered C function. -/
def CFunction.run (f : CFunction) (X : Foreign) (tables : Nat → TableEntries) (fuel : Nat)
    (hist : List Call) (stack : List LuaValue) : Option Run :=
  match f with
  | .lzip_open => some (Lzip.lzip_open X hist stack)
  | .lzipFiles => Lzip.lzipFiles X tables fuel hist stack
  | .lzip_close => some (Lzip.lzip_close X hist stack)
  | .lzip_is64 => some (Lzip.lzip_is64 X hist stack)
  | .lzip_entry_opencasesensitive => some (Lzip.lzip_entry_opencasesensitive X hist stack)
  | .lzip_entry_openbyindex => some (Lzip.lzip_entry_openbyindex X hist stack)
  | .lzip_entry_index => some (Lzip.lzip_entry_index X hist stack)
  | .lzip_entry_open => some (Lzip.lzip_entry_open X hist stack)
  | .lzip_entry_name => some (Lzip.lzip_entry_name X hist stack)
  | .lzip_entry_isdir => some (Lzip.lzip_entry_isdir X hist stack)
  | .lzip_entry_size => some (Lzip.lzip_entry_size X hist stack)
  | .lzip_entry_uncomp_size => some (Lzip.lzip_entry_uncomp_size X hist stack)
  | .lzip_entry_comp_size => some (Lzip.lzip_entry_comp_size X hist stack)
  | .lzip_entry_crc32 => some (Lzip.lzip_entry_crc32 X hist stack)
  | .lzip_entry_close => some (Lzip.lzip_entry_close X hist stack)
  | .lzip_entries_total => some (Lzip.lzip_entries_total X hist stack)
  | .lzip_entry_fwrite => some (Lzip.lzip_entry_fwrite X hist stack)
  | .lzip_entry_fread => some (Lzip.lzip_entry_fread X hist stack)
  | .lzip_entry_write => some (Lzip.lzip_entry_write X hist stack)
  | .lzip__gc => some (Lzip.lzip__gc X hist stack)

/-- The C function a name is bound to in a registration table. -/
def registered (table : List (String × CFunction)) (name : String) : Option CFunction :=
  (table.find? (fun e => e.1 == name)).map (fun e => e.2)

/-- What the caller of a C function receives: the top `nresults` values of the
final stack.  Nothing is defined when the function raised, or when the count is
negative or exceeds the stack. -/
def Outcome.results : Outcome → Option (List LuaValue)
  | .raised _ => none
  | .returned n stack =>
    if 0 ≤ n ∧ n ≤ stack.length then some (stack.drop (stack.length - n.toNat)) else none

/-! ## Vocabulary of the statements -/

/-- The four mode strings of one character that `lzip_open` documents or accepts. -/
def valid_modes : List LuaString := [['r'], ['w'], ['a'], ['d']]

/-- The outcome is one of the two errors `lzip_open` raises while it validates its
arguments. -/
def invalid_argument (o : Outcome) : Prop :=
  o = .raised (.msg usage_message) ∨ o = .raised (.msg mode_message)

/-- The level `lzip_open` hands to `zip_open` for the number it got as its second
argument: the default when the low four bits exceed 9, the number otherwise. -/
def open_level (X : Foreign) (number : Int) : Int :=
  if and_0xF (to_int number) > 9 then X.ZIP_DEFAULT_COMPRESSION_LEVEL else to_int number

/-- The value fits an `int`. -/
def in_int_range (n : Int) : Prop := -2147483648 ≤ n ∧ n ≤ 2147483647

instance (n : Int) : Decidable (in_int_range n) := by
  unfold in_int_range
  infer_instance

instance (o : Outcome) : Decidable (invalid_argument o) := by
  unfold invalid_argument
  infer_instance

/-- A handle as `lzip_open` makes it: a userdata with the metatable `lzip.db`. -/
def handle (zip_t : Ptr) : LuaValue := .userdata (some lzip_db) zip_t

/-- A library for the examples: an archive of two entries.  `zip_open` returns
the handle 1 for every name but `NULL`, an index outside 0 and 1 is refused
with a negative status, every other function answers 0 for success, and only
the status 0 has no message. -/
def example_library : Foreign where
  ZIP_DEFAULT_COMPRESSION_LEVEL := 6
  zip_open := fun _ zipname _ _ => if zipname = none then 0 else 1
  status := fun _ c =>
    match c with
    | .zip_entry_openbyindex _ index => if 0 ≤ index ∧ index < 2 then 0 else -10
    | .zip_entries_total _ => 2
    | _ => 0
  zip_entry_name := fun _ _ => none
  zip_strerror := fun err => if err = 0 then none else some "error".toList
  number2str := fun _ => []
  str2number := fun _ => none

/-- The value `lzip_geterror` pushes for a status: the message of the library, or
nil when the library has none. -/
def message_value (X : Foreign) (err : Int) : LuaValue :=
  match X.zip_strerror err with
  | some m => .string (c_str m)
  | none => .nil

/-- A library for the examples on lookup by name, behaving as the names of its two
lookup functions say: an archive with the one entry `A.TXT`, in which
`zip_entry_opencasesensitive` finds a name equal to the name of the entry and
`zip_entry_open` a name equal to it once both are in lower case; a name that is
not found gets the status -3. -/
def case_library : Foreign where
  ZIP_DEFAULT_COMPRESSION_LEVEL := 6
  zip_open := fun _ zipname _ _ => if zipname = none then 0 else 1
  status := fun _ c =>
    match c with
    | .zip_entry_opencasesensitive _ (some entryname) =>
      if entryname = "A.TXT".toList then 0 else -3
    | .zip_entry_open _ (some entryname) =>
      if entryname.map Char.toLower = "A.TXT".toList.map Char.toLower then 0 else -3
    | .zip_entries_total _ => 1
    | _ => 0
  zip_entry_name := fun _ _ => none
  zip_strerror := fun err => if err = 0 then none else some "error".toList
  number2str := fun _ => []
  str2number := fun _ => none

/-- The methods of a handle that take no further argument, each with the function
of `zip.h` it stands for. -/
def handle_calls : List (String × (Ptr → Call)) :=
  [("close", Call.zip_close),
   ("is64", Call.zip_is64),
   ("entry_index", Call.zip_entry_index),
   ("entry_name", Call.zip_entry_name),
   ("entry_isdir", Call.zip_entry_isdir),
   ("entry_size", Call.zip_entry_size),
   ("entry_uncomp_size", Call.zip_entry_uncomp_size),
   ("entry_comp_size", Call.zip_entry_comp_size),
   ("entry_crc32", Call.zip_entry_crc32),
   ("entry_close", Call.zip_entry_close),
   ("entries_total", Call.zip_entries_total),
   ("__gc", Call.zip_close)]

/-- The methods of a handle that take a name, each with the function of `zip.h` it
stands for. -/
def named_calls : List (String × (Ptr → Option LuaString → Call)) :=
  [("entry_opencasesensitive", Call.zip_entry_opencasesensitive),
   ("entry_open", Call.zip_entry_open),
   ("entry_fwrite", Call.zip_entry_fwrite),
   ("entry_fread", Call.zip_entry_fread)]

/-- The three library calls `lzipFiles` makes for one file name. -/
def entry_calls (Zip : Ptr) (name : LuaString) : List Call :=
  [Call.zip_entry_open Zip (some (c_str name)),
   Call.zip_entry_fwrite Zip (some (c_str name)),
   Call.zip_entry_close Zip]

/-- The level a call of `compress_files` asks for, from the arguments after the
table: the third argument converted to `int` when `lua_isnumber` accepts it (a
number, or a string that converts to one), the default level otherwise. -/
def requested_level (X : Foreign) (extra : List LuaValue) : Int :=
  match lua_tonumber X extra.head? with
  | some n => to_int n
  | none => X.ZIP_DEFAULT_COMPRESSION_LEVEL

/-- The entries of a table whose values are all strings, from its keys and file
names. -/
def file_list (files : List (LuaValue × LuaString)) : TableEntries :=
  files.map (fun e => (e.1, .string e.2))

/-- A library for the examples on the boolean getters: a handle on which no entry
is selected and whose archive state is missing, so that `zip_entry_isdir` and
`zip_is64` answer with the negative error status -1; every other function
answers 0. -/
def no_entry_library : Foreign where
  ZIP_DEFAULT_COMPRESSION_LEVEL := 6
  zip_open := fun _ zipname _ _ => if zipname = none then 0 else 1
  status := fun _ c =>
    match c with
    | .zip_entry_isdir _ => -1
    | .zip_is64 _ => -1
    | _ => 0
  zip_entry_name := fun _ _ => none
  zip_strerror := fun err => if err = 0 then none else some "error".toList
  number2str := fun _ => []
  str2number := fun _ => none

/-- The example library with the coercion of Lua for the string `9`: it converts
to the number 9; no other string converts. -/
def numeric_string_library : Foreign :=
  { example_library with str2number := fun s => if s = ['9'] then some 9 else none }

/-- The table `{true, "a.txt"}`: the value at key 1 is a boolean, the value at key
2 a file name. -/
def mixed_table : TableEntries :=
  [(.number 1, .boolean true), (.number 2, .string "a.txt".toList)]

/-! ## Lemmas on the machine integers -/

theorem and_0xF_eq_emod (x : Int) : and_0xF x = x % 16 := by
  unfold and_0xF
  have h := Nat.and_pow_two_sub_one_eq_mod (x % 4294967296).toNat 4
  have h15 : (2 : Nat) ^ 4 - 1 = 0xF := by norm_num
  rw [h15] at h
  rw [h]
  omega

theorem to_int_of_in_range (n : Int) (h : in_int_range n) : to_int n = n := by
  unfold in_int_range at h
  unfold to_int
  omega

/-! ## `lzip_open` -/

theorem c_str_cons (c : Char) (s : LuaString) :
    c_str (c :: s) = if c = NUL then [] else c :: c_str s := by
  unfold c_str
  by_cases h : c = NUL
  · simp [List.takeWhile, h]
  · have hb : (c != NUL) = true := by simpa using h
    simp [List.takeWhile, h, hb]

theorem valid_mode_iff (mode : LuaString) :
    c_str mode ∈ valid_modes ↔
      strlen mode = 1 ∧ ¬ (char_at_0 mode ≠ 'w' ∧ char_at_0 mode ≠ 'r' ∧ char_at_0 mode ≠ 'a'
        ∧ char_at_0 mode ≠ 'd') := by
  cases mode with
  | nil => simp [c_str, valid_modes, strlen]
  | cons c rest =>
    have hw : ('w' : Char) ≠ NUL := by decide
    have hr : ('r' : Char) ≠ NUL := by decide
    have ha : ('a' : Char) ≠ NUL := by decide
    have hd : ('d' : Char) ≠ NUL := by decide
    simp only [strlen, c_str_cons, char_at_0, List.headD_cons, valid_modes]
    by_cases h0 : c = NUL
    · subst h0
      simp [hw, hr, ha, hd]
    · simp only [h0, if_false, List.length_cons, List.mem_cons, List.cons.injEq,
        List.mem_singleton, List.not_mem_nil, or_false]
      constructor
      · rintro (⟨rfl, h⟩ | ⟨rfl, h⟩ | ⟨rfl, h⟩ | ⟨rfl, h⟩) <;> simp [h]
      · rintro ⟨hlen, hc⟩
        have hnil : c_str rest = [] := by
          apply List.eq_nil_of_length_eq_zero
          omega
        simp only [hnil, and_true]
        by_contra hcon
        apply hc
        simp only [not_or] at hcon
        exact ⟨hcon.2.1, hcon.1, hcon.2.2.1, hcon.2.2.2⟩

/-- The run of `lzip_open` on three arguments of the right types. -/
theorem lzip_open_typed (X : Foreign) (hist : List Call) (zipname : LuaString) (number : Int)
    (mode : LuaString) :
    lzip_open X hist [.string zipname, .number number, .string mode] =
      if c_str mode ∈ valid_modes then
        if X.zip_open hist (some (c_str zipname)) (open_level X number) (char_at_0 mode) = 0 then
          ⟨.raised (.msg open_message),
            hist ++ [Call.zip_open (some (c_str zipname)) (open_level X number) (char_at_0 mode)]⟩
        else
          ⟨.returned 1 ([.string zipname, .number number, .string mode] ++
              [handle (X.zip_open hist (some (c_str zipname)) (open_level X number)
                (char_at_0 mode))]),
            hist ++ [Call.zip_open (some (c_str zipname)) (open_level X number) (char_at_0 mode)]⟩
      else ⟨.raised (.msg mode_message), hist⟩ := by
  have hv := valid_mode_iff mode
  simp only [lzip_open, lua_gettop, luaL_checkstring, luaL_checknumber, lua_index,
    lua_tostring, lua_tonumber, handle, open_level]
  by_cases h1 : strlen mode = 1
  · by_cases h2 : (char_at_0 mode ≠ 'w' ∧ char_at_0 mode ≠ 'r' ∧ char_at_0 mode ≠ 'a'
        ∧ char_at_0 mode ≠ 'd')
    · have hn : ¬ c_str mode ∈ valid_modes := fun hm => (hv.1 hm).2 h2
      simp [h1, h2, hn]
    · have hy : c_str mode ∈ valid_modes := hv.2 ⟨h1, h2⟩
      simp [h1, h2, hy]
  · have hn : ¬ c_str mode ∈ valid_modes := fun hm => h1 (hv.1 hm).1
    simp [h1, hn]

/-- The library call of `lzip_open` on valid arguments. -/
theorem lzip_open_valid_trace (X : Foreign) (hist : List Call) (zipname : LuaString)
    (number : Int) (mode : LuaString) (hm : c_str mode ∈ valid_modes) :
    (lzip_open X hist [.string zipname, .number number, .string mode]).trace =
      hist ++ [Call.zip_open (some (c_str zipname)) (open_level X number) (char_at_0 mode)] := by
  rw [lzip_open_typed]
  simp only [hm, if_true]
  split <;> rfl

/-- The outcome of `lzip_open` on valid arguments. -/
theorem lzip_open_valid_outcome (X : Foreign) (hist : List Call) (zipname : LuaString)
    (number : Int) (mode : LuaString) (hm : c_str mode ∈ valid_modes) :
    (lzip_open X hist [.string zipname, .number number, .string mode]).outcome =
      if X.zip_open hist (some (c_str zipname)) (open_level X number) (char_at_0 mode) = 0 then
        .raised (.msg open_message)
      else
        .returned 1 [.string zipname, .number number, .string mode,
          handle (X.zip_open hist (some (c_str zipname)) (open_level X number) (char_at_0 mode))] := by
  rw [lzip_open_typed]
  simp only [hm, if_true]
  split <;> rfl

theorem messages_distinct :
    usage_message ≠ open_message ∧ mode_message ≠ open_message := by decide

/-- C1 (as stated, refuted): the mode made of `r`, a NUL and `x` is a Lua string of
three characters, not one of the four one-character modes, and the argument count
is 3; `lzip_open` raises no error, asks the library to open the archive with the
mode `r` and returns the handle. -/
theorem lzip_open_accepts_mode_with_nul :
    ['r', NUL, 'x'] ∉ valid_modes ∧
    lzip_open example_library []
        [.string "a.zip".toList, .number 6, .string ['r', NUL, 'x']] =
      ⟨.returned 1 [.string "a.zip".toList, .number 6, .string ['r', NUL, 'x'], handle 1],
        [Call.zip_open (some "a.zip".toList) 6 'r']⟩ ∧
    ¬ invalid_argument (lzip_open example_library []
        [.string "a.zip".toList, .number 6, .string ['r', NUL, 'x']]).outcome := by
  have hrun : lzip_open example_library []
        [.string "a.zip".toList, .number 6, .string ['r', NUL, 'x']] =
      ⟨.returned 1 [.string "a.zip".toList, .number 6, .string ['r', NUL, 'x'], handle 1],
        [Call.zip_open (some "a.zip".toList) 6 'r']⟩ := by decide
  refine ⟨by decide, hrun, ?_⟩
  rw [hrun]
  simp [invalid_argument]

/-- C1 (amended): for a call of `open` whose arguments, when there are three, are a
string, a number and a string, an invalid-argument error is raised if and only if
the argument count is not 3 or the mode, read as a C string (its characters before
the first NUL), is not one of the one-character strings `r`, `w`, `a`, `d`; in
every other case the library is asked to open the archive with that character. -/
theorem lzip_open_rejects_iff (X : Foreign) (hist : List Call) (stack : List LuaValue)
    (zipname : LuaString) (number : Int) (mode : LuaString)
    (htyped : stack.length = 3 → stack = [.string zipname, .number number, .string mode]) :
    (invalid_argument (lzip_open X hist stack).outcome ↔
      (stack.length ≠ 3 ∨ c_str mode ∉ valid_modes)) ∧
    (stack.length = 3 → c_str mode ∈ valid_modes →
      c_str mode = [char_at_0 mode] ∧
      ∃ level, (lzip_open X hist stack).trace =
        hist ++ [Call.zip_open (some (c_str zipname)) level (char_at_0 mode)]) := by
  by_cases hlen : stack.length = 3
  · rw [htyped hlen]
    by_cases hm : c_str mode ∈ valid_modes
    · have hone : c_str mode = [char_at_0 mode] := by
        cases mode with
        | nil => simp [c_str, valid_modes] at hm
        | cons c rest =>
          rw [c_str_cons] at hm ⊢
          by_cases h0 : c = NUL
          · simp [h0, valid_modes] at hm
          · simp only [h0, if_false, valid_modes, List.mem_cons, List.cons.injEq,
              List.mem_singleton, List.not_mem_nil, or_false] at hm ⊢
            rcases hm with ⟨_, h⟩ | ⟨_, h⟩ | ⟨_, h⟩ | ⟨_, h⟩ <;> simp [h, char_at_0]
      refine ⟨?_, fun _ _ => ⟨hone, _, lzip_open_valid_trace X hist zipname number mode hm⟩⟩
      rw [lzip_open_valid_outcome X hist zipname number mode hm]
      constructor
      · intro h
        exfalso
        have hd := messages_distinct
        unfold invalid_argument at h
        split at h
        · rcases h with h | h
          · injection h with h; injection h with h; exact hd.1 h.symm
          · injection h with h; injection h with h; exact hd.2 h.symm
        · rcases h with h | h <;> cases h
      · intro h
        simp [hm] at h
    · refine ⟨?_, fun _ h => absurd h hm⟩
      rw [lzip_open_typed]
      simp [hm, invalid_argument]
  · refine ⟨?_, fun h => absurd h hlen⟩
    have hrun : lzip_open X hist stack = ⟨.raised (.msg usage_message), hist⟩ := by
      simp [lzip_open, lua_gettop, hlen]
    rw [hrun]
    simp [invalid_argument, hlen]

/-- C1 (amended), applied to a call with the mode `r` and to a call with two
arguments. -/
theorem lzip_open_rejects_iff_witness :
    (¬ invalid_argument (lzip_open example_library []
        [.string "a.zip".toList, .number 6, .string ['r']]).outcome) ∧
    invalid_argument (lzip_open example_library []
        [.string "a.zip".toList, .number 6]).outcome := by
  constructor
  · have h := (lzip_open_rejects_iff example_library []
      [.string "a.zip".toList, .number 6, .string ['r']] "a.zip".toList 6 ['r']
      (fun _ => rfl)).1
    intro hinv
    rcases h.1 hinv with h3 | hm
    · exact h3 rfl
    · exact hm (by decide)
  · exact ((lzip_open_rejects_iff example_library []
      [.string "a.zip".toList, .number 6] [] 0 [] (fun h => by simp at h)).1).2
        (Or.inl (by decide))

/-- C2 (as stated, refuted): the level 16 is greater than 9 and the level -16 is
negative, and `lzip_open` passes each to the library as it is; the default level
of the example library is 6. -/
theorem lzip_open_passes_level_16 :
    (lzip_open example_library []
        [.string "a.zip".toList, .number 16, .string ['w']]).trace =
      [Call.zip_open (some "a.zip".toList) 16 'w'] ∧
    (lzip_open example_library []
        [.string "a.zip".toList, .number (-16), .string ['w']]).trace =
      [Call.zip_open (some "a.zip".toList) (-16) 'w'] ∧
    example_library.ZIP_DEFAULT_COMPRESSION_LEVEL = 6 := by
  decide

/-- C2 (amended): for every level that fits an `int`, `open` passes the level
itself to the library when its low four bits (the level modulo 16) are at most 9,
which holds for every level from 0 to 9, and passes the default level when they
exceed 9. -/
theorem lzip_open_level (X : Foreign) (hist : List Call) (zipname : LuaString)
    (number : Int) (mode : LuaString) (hrange : in_int_range number)
    (hm : c_str mode ∈ valid_modes) :
    (number % 16 ≤ 9 →
      (lzip_open X hist [.string zipname, .number number, .string mode]).trace =
        hist ++ [Call.zip_open (some (c_str zipname)) number (char_at_0 mode)]) ∧
    (0 ≤ number → number ≤ 9 →
      (lzip_open X hist [.string zipname, .number number, .string mode]).trace =
        hist ++ [Call.zip_open (some (c_str zipname)) number (char_at_0 mode)]) ∧
    (9 < number % 16 →
      (lzip_open X hist [.string zipname, .number number, .string mode]).trace =
        hist ++ [Call.zip_open (some (c_str zipname)) X.ZIP_DEFAULT_COMPRESSION_LEVEL
          (char_at_0 mode)]) := by
  have hlow : number % 16 ≤ 9 →
      (lzip_open X hist [.string zipname, .number number, .string mode]).trace =
        hist ++ [Call.zip_open (some (c_str zipname)) number (char_at_0 mode)] := by
    intro h
    rw [lzip_open_valid_trace X hist zipname number mode hm]
    unfold open_level
    rw [to_int_of_in_range number hrange, and_0xF_eq_emod]
    have h9 : ¬ number % 16 > 9 := by omega
    simp [h9]
  refine ⟨hlow, fun h0 h9 => hlow (by omega), ?_⟩
  intro h
  rw [lzip_open_valid_trace X hist zipname number mode hm]
  unfold open_level
  rw [to_int_of_in_range number hrange, and_0xF_eq_emod]
  have h9 : number % 16 > 9 := h
  simp [h9]

/-- C2 (amended), applied to the levels 7 and 12. -/
theorem lzip_open_level_witness :
    (lzip_open example_library []
        [.string "a.zip".toList, .number 7, .string ['w']]).trace =
      [Call.zip_open (some "a.zip".toList) 7 'w'] ∧
    (lzip_open example_library []
        [.string "a.zip".toList, .number 12, .string ['w']]).trace =
      [Call.zip_open (some "a.zip".toList) 6 'w'] :=
  ⟨(lzip_open_level example_library [] "a.zip".toList 7 ['w'] (by decide) (by decide)).2.1
      (by decide) (by decide),
   (lzip_open_level example_library [] "a.zip".toList 12 ['w'] (by decide) (by decide)).2.2
      (by decide)⟩

/-- C6: on three well-typed arguments with a valid mode, when `zip_open` returns
`NULL` the call raises the error `Unable to open archive.` and the caller receives
nothing; otherwise it returns exactly one value, a userdata with the metatable
`lzip.db` whose field `zip_t` is the pointer the library returned. -/
theorem lzip_open_result (X : Foreign) (hist : List Call) (zipname : LuaString)
    (number : Int) (mode : LuaString) (hm : c_str mode ∈ valid_modes) :
    ∃ level,
      (lzip_open X hist [.string zipname, .number number, .string mode]).trace =
        hist ++ [Call.zip_open (some (c_str zipname)) level (char_at_0 mode)] ∧
      (X.zip_open hist (some (c_str zipname)) level (char_at_0 mode) = 0 →
        (lzip_open X hist [.string zipname, .number number, .string mode]).outcome =
          .raised (.msg "Unable to open archive.") ∧
        (lzip_open X hist [.string zipname, .number number, .string mode]).outcome.results =
          none) ∧
      (X.zip_open hist (some (c_str zipname)) level (char_at_0 mode) ≠ 0 →
        (∃ stack, (lzip_open X hist [.string zipname, .number number, .string mode]).outcome =
          .returned 1 stack) ∧
        (lzip_open X hist [.string zipname, .number number, .string mode]).outcome.results =
          some [.userdata (some "lzip.db")
            (X.zip_open hist (some (c_str zipname)) level (char_at_0 mode))]) := by
  refine ⟨open_level X number, lzip_open_valid_trace X hist zipname number mode hm, ?_, ?_⟩
  · intro h0
    rw [lzip_open_valid_outcome X hist zipname number mode hm]
    simp [h0, open_message, Outcome.results]
  · intro h0
    rw [lzip_open_valid_outcome X hist zipname number mode hm]
    simp [h0, Outcome.results, handle, lzip_db]

/-- C6, applied to an archive the example library opens: the caller receives the
handle 1. -/
theorem lzip_open_result_witness :
    ['r'] ∈ valid_modes ∧
    (lzip_open example_library []
      [.string "a.zip".toList, .number 6, .string ['r']]).outcome.results =
      some [.userdata (some "lzip.db") 1] := by
  obtain ⟨level, _, _, hok⟩ :=
    lzip_open_result example_library [] "a.zip".toList 6 ['r'] (by decide)
  have h1 : example_library.zip_open [] (some (c_str "a.zip".toList)) level (char_at_0 ['r'])
      = 1 := rfl
  rw [h1] at hok
  exact ⟨by decide, (hok (by decide)).2⟩

/-! ## `lzip_close` and `lzip__gc` -/

/-- The run of `lzip_close` on a handle whose pointer is not `NULL`. -/
theorem lzip_close_handle (X : Foreign) (hist : List Call) (p : Nat) :
    lzip_close X hist [handle (p + 1)] =
      ⟨.returned 0 [handle (p + 1)], hist ++ [Call.zip_close (p + 1)]⟩ := by
  simp [lzip_close, check_lzip, lua_index, handle]

/-- C3 (the code at the failing input): after `close` on a handle, the handle still
holds the pointer, so a second `close`, and likewise the finalizer `__gc`, calls
`zip_close` on the same pointer again: two calls in all, neither raising. -/
theorem lzip_close_twice_calls_zip_close_twice (X : Foreign) (hist : List Call) (p : Nat) :
    lzip_close X (lzip_close X hist [handle (p + 1)]).trace [handle (p + 1)] =
      ⟨.returned 0 [handle (p + 1)],
        hist ++ [Call.zip_close (p + 1), Call.zip_close (p + 1)]⟩ ∧
    lzip__gc X (lzip_close X hist [handle (p + 1)]).trace [handle (p + 1)] =
      ⟨.returned 0 [handle (p + 1)],
        hist ++ [Call.zip_close (p + 1), Call.zip_close (p + 1)]⟩ := by
  constructor
  · rw [lzip_close_handle, lzip_close_handle]
    simp
  · unfold lzip__gc
    rw [lzip_close_handle, lzip_close_handle]
    simp

/-! ## The entry-open methods -/

/-- The three entry-open methods return the status of the library as their count of
results, push nothing and raise nothing. -/
theorem lzip_entry_open_returns_status (X : Foreign) (hist : List Call) (zip_t : Ptr)
    (entryname : LuaString) (number : Int) :
    lzip_entry_open X hist [handle zip_t, .string entryname] =
      ⟨.returned (X.status hist (Call.zip_entry_open zip_t (some (c_str entryname))))
          [handle zip_t, .string entryname],
        hist ++ [Call.zip_entry_open zip_t (some (c_str entryname))]⟩ ∧
    lzip_entry_opencasesensitive X hist [handle zip_t, .string entryname] =
      ⟨.returned
          (X.status hist (Call.zip_entry_opencasesensitive zip_t (some (c_str entryname))))
          [handle zip_t, .string entryname],
        hist ++ [Call.zip_entry_opencasesensitive zip_t (some (c_str entryname))]⟩ ∧
    lzip_entry_openbyindex X hist [handle zip_t, .number number] =
      ⟨.returned (X.status hist (Call.zip_entry_openbyindex zip_t (to_long number)))
          [handle zip_t, .number number],
        hist ++ [Call.zip_entry_openbyindex zip_t (to_long number)]⟩ := by
  simp [lzip_entry_open, lzip_entry_opencasesensitive, lzip_entry_openbyindex, check_lzip,
    lua_index, handle, luaL_checkstring, luaL_checknumber, lua_tostring, lua_tonumber]

/-- C4 (the code at the failing input): on the archive of two entries,
`entry_openbyindex` with index 5 is refused by the library with the status -10;
the method raises no error and pushes no value, it returns -10 as its count of
results, for which the caller receives nothing defined. -/
theorem lzip_entry_openbyindex_index_5 :
    example_library.status [] (Call.zip_entries_total 1) = 2 ∧
    lzip_entry_openbyindex example_library [] [handle 1, .number 5] =
      ⟨.returned (-10) [handle 1, .number 5], [Call.zip_entry_openbyindex 1 5]⟩ ∧
    (lzip_entry_openbyindex example_library [] [handle 1, .number 5]).outcome.results =
      none := by
  decide

/-! ## `lzip_entry_write` -/

/-- The function `lzip_geterror` pushes the value `message_value`. -/
theorem lzip_geterror_eq (X : Foreign) (stack : List LuaValue) (err : Int) :
    lzip_geterror X stack err = .returned 1 (stack ++ [message_value X err]) := by
  unfold lzip_geterror lua_pushstring message_value
  cases X.zip_strerror err <;> rfl

/-- The run of `lzip_entry_write` on a handle, a string and a number. -/
theorem lzip_entry_write_typed (X : Foreign) (hist : List Call) (zip_t : Ptr)
    (buf : LuaString) (number : Int) :
    lzip_entry_write X hist [handle zip_t, .string buf, .number number] =
      ⟨.returned 1 [handle zip_t, .string buf, .number number,
          message_value X (X.status hist (Call.zip_entry_write zip_t buf (to_size_t number)))],
        hist ++ [Call.zip_entry_write zip_t buf (to_size_t number)]⟩ := by
  simp [lzip_entry_write, check_lzip, lua_index, handle, luaL_checkstring,
    luaL_checknumber, lua_tostring, lua_tonumber, lzip_geterror_eq]

/-- C5 (as stated, refuted): the library accepts the five bytes of `hello` (status
0), and `entry_write` returns nil, the message of the example library for the
status 0, not the count 5. -/
theorem lzip_entry_write_returns_no_count :
    example_library.status [] (Call.zip_entry_write 1 "hello".toList 5) = 0 ∧
    lzip_entry_write example_library [] [handle 1, .string "hello".toList, .number 5] =
      ⟨.returned 1 [handle 1, .string "hello".toList, .number 5, .nil],
        [Call.zip_entry_write 1 "hello".toList 5]⟩ ∧
    (lzip_entry_write example_library []
      [handle 1, .string "hello".toList, .number 5]).outcome.results = some [.nil] := by
  decide

/-- C5 (amended): `entry_write` returns exactly one value, the message of the library
for the status of `zip_entry_write` (nil when the library has none), after a
success and after a failure alike; that value is never a count; and two writes
differ in what the caller receives exactly when the messages of their statuses
differ. -/
theorem lzip_entry_write_result (X : Foreign) (hist : List Call) (zip_t : Ptr)
    (buf : LuaString) (number : Int) :
    (lzip_entry_write X hist [handle zip_t, .string buf, .number number]).trace =
      hist ++ [Call.zip_entry_write zip_t buf (to_size_t number)] ∧
    (lzip_entry_write X hist [handle zip_t, .string buf, .number number]).outcome.results =
      some [message_value X
        (X.status hist (Call.zip_entry_write zip_t buf (to_size_t number)))] ∧
    (∀ count : Int, message_value X
        (X.status hist (Call.zip_entry_write zip_t buf (to_size_t number))) ≠ .number count) ∧
    (∀ (hist2 : List Call) (buf2 : LuaString) (number2 : Int),
      ((lzip_entry_write X hist [handle zip_t, .string buf, .number number]).outcome.results =
        (lzip_entry_write X hist2
          [handle zip_t, .string buf2, .number number2]).outcome.results ↔
       message_value X (X.status hist (Call.zip_entry_write zip_t buf (to_size_t number))) =
        message_value X
          (X.status hist2 (Call.zip_entry_write zip_t buf2 (to_size_t number2))))) := by
  refine ⟨?_, ?_, ?_, ?_⟩
  · rw [lzip_entry_write_typed]
  · rw [lzip_entry_write_typed]
    simp [Outcome.results]
  · intro count
    unfold message_value
    cases X.zip_strerror (X.status hist (Call.zip_entry_write zip_t buf (to_size_t number))) <;>
      simp
  · intro hist2 buf2 number2
    rw [lzip_entry_write_typed, lzip_entry_write_typed]
    simp [Outcome.results]

/-! ## The registration tables -/

/-- C8 (as stated, refuted): the separately named variant is `entry_opencasesensitive`
and calls `zip_entry_opencasesensitive`; the default `entry_open` calls
`zip_entry_open`.  On the archive whose entry is `A.TXT`, with a library that
behaves as these names say, the default method finds `a.txt` (status 0) and the
named variant does not (status -3): the default is the lookup that ignores case
and the named variant the case-sensitive one. -/
theorem entry_open_default_ignores_case :
    registered lzip_method_map "entry_open" = some .lzip_entry_open ∧
    registered lzip_method_map "entry_opencasesensitive" =
      some .lzip_entry_opencasesensitive ∧
    registered lzip_method_map "entry_opencaseinsensitive" = none ∧
    lzip_entry_open case_library [] [handle 1, .string "a.txt".toList] =
      ⟨.returned 0 [handle 1, .string "a.txt".toList],
        [Call.zip_entry_open 1 (some "a.txt".toList)]⟩ ∧
    lzip_entry_opencasesensitive case_library [] [handle 1, .string "a.txt".toList] =
      ⟨.returned (-3) [handle 1, .string "a.txt".toList],
        [Call.zip_entry_opencasesensitive 1 (some "a.txt".toList)]⟩ := by
  decide

/-- C8 (amended): the default method `entry_open` performs the lookup of the
library function `zip_entry_open`, and the separately named variant
`entry_opencasesensitive` performs the case-sensitive lookup, that of
`zip_entry_opencasesensitive`; each makes exactly that one library call with the
name it was given, and no other method of a handle is bound to either function. -/
theorem entry_open_methods (X : Foreign) (tables : Nat → TableEntries) (fuel : Nat)
    (hist : List Call) (zip_t : Ptr) (entryname : LuaString) :
    (∃ f, registered lzip_method_map "entry_open" = some f ∧
      (f.run X tables fuel hist [handle zip_t, .string entryname]).map Run.trace =
        some (hist ++ [Call.zip_entry_open zip_t (some (c_str entryname))])) ∧
    (∃ f, registered lzip_method_map "entry_opencasesensitive" = some f ∧
      (f.run X tables fuel hist [handle zip_t, .string entryname]).map Run.trace =
        some (hist ++ [Call.zip_entry_opencasesensitive zip_t (some (c_str entryname))])) ∧
    (∀ e ∈ lzip_method_map,
      (e.2 = .lzip_entry_open → e.1 = "entry_open") ∧
      (e.2 = .lzip_entry_opencasesensitive → e.1 = "entry_opencasesensitive")) := by
  refine ⟨⟨.lzip_entry_open, by decide, ?_⟩, ⟨.lzip_entry_opencasesensitive, by decide, ?_⟩,
    by decide⟩
  · simp [CFunction.run, (lzip_entry_open_returns_status X hist zip_t entryname 0).1]
  · simp [CFunction.run, (lzip_entry_open_returns_status X hist zip_t entryname 0).2.1]

/-- The run of a method without further argument on a handle whose pointer is not
`NULL`: one library call. -/
theorem handle_calls_trace (X : Foreign) (tables : Nat → TableEntries) (fuel : Nat)
    (hist : List Call) (p : Nat) :
    ∀ e ∈ handle_calls, ∃ f, registered lzip_method_map e.1 = some f ∧
      (f.run X tables fuel hist [handle (p + 1)]).map Run.trace =
        some (hist ++ [e.2 (p + 1)]) := by
  intro e he
  simp only [handle_calls, List.mem_cons, List.mem_singleton, List.not_mem_nil, or_false] at he
  rcases he with rfl | rfl | rfl | rfl | rfl | rfl | rfl | rfl | rfl | rfl | rfl | rfl
  · exact ⟨.lzip_close, by decide, by simp [CFunction.run, lzip_close_handle]⟩
  · exact ⟨.lzip_is64, by decide,
      by simp [CFunction.run, lzip_is64, check_lzip, lua_index, handle]⟩
  · exact ⟨.lzip_entry_index, by decide,
      by simp [CFunction.run, lzip_entry_index, check_lzip, lua_index, handle]⟩
  · exact ⟨.lzip_entry_name, by decide,
      by simp [CFunction.run, lzip_entry_name, check_lzip, lua_index, handle]⟩
  · exact ⟨.lzip_entry_isdir, by decide,
      by simp [CFunction.run, lzip_entry_isdir, check_lzip, lua_index, handle]⟩
  · exact ⟨.lzip_entry_size, by decide,
      by simp [CFunction.run, lzip_entry_size, check_lzip, lua_index, handle]⟩
  · exact ⟨.lzip_entry_uncomp_size, by decide,
      by simp [CFunction.run, lzip_entry_uncomp_size, check_lzip, lua_index, handle]⟩
  · exact ⟨.lzip_entry_comp_size, by decide,
      by simp [CFunction.run, lzip_entry_comp_size, check_lzip, lua_index, handle]⟩
  · exact ⟨.lzip_entry_crc32, by decide,
      by simp [CFunction.run, lzip_entry_crc32, check_lzip, lua_index, handle]⟩
  · exact ⟨.lzip_entry_close, by decide,
      by simp [CFunction.run, lzip_entry_close, check_lzip, lua_index, handle]⟩
  · exact ⟨.lzip_entries_total, by decide,
      by simp [CFunction.run, lzip_entries_total, check_lzip, lua_index, handle]⟩
  · exact ⟨.lzip__gc, by decide, by simp [CFunction.run, lzip__gc, lzip_close_handle]⟩

/-- The run of a method that takes a name: one library call, with the C string of
the name. -/
theorem named_calls_trace (X : Foreign) (tables : Nat → TableEntries) (fuel : Nat)
    (hist : List Call) (zip_t : Ptr) (name : LuaString) :
    ∀ e ∈ named_calls, ∃ f, registered lzip_method_map e.1 = some f ∧
      (f.run X tables fuel hist [handle zip_t, .string name]).map Run.trace =
        some (hist ++ [e.2 zip_t (some (c_str name))]) := by
  intro e he
  simp only [named_calls, List.mem_cons, List.mem_singleton, List.not_mem_nil, or_false] at he
  rcases he with rfl | rfl | rfl | rfl
  · exact ⟨.lzip_entry_opencasesensitive, by decide,
      by simp [CFunction.run, lzip_entry_opencasesensitive, check_lzip, lua_index, handle,
        luaL_checkstring, lua_tostring]⟩
  · exact ⟨.lzip_entry_open, by decide,
      by simp [CFunction.run, lzip_entry_open, check_lzip, lua_index, handle,
        luaL_checkstring, lua_tostring]⟩
  · exact ⟨.lzip_entry_fwrite, by decide,
      by simp [CFunction.run, lzip_entry_fwrite, check_lzip, lua_index, handle,
        luaL_checkstring, lua_tostring]⟩
  · exact ⟨.lzip_entry_fread, by decide,
      by simp [CFunction.run, lzip_entry_fread, check_lzip, lua_index, handle,
        luaL_checkstring, lua_tostring]⟩

/-- The run of `lzip_entry_fread` on a handle and a file name. -/
theorem lzip_entry_fread_typed (X : Foreign) (hist : List Call) (zip_t : Ptr)
    (filename : LuaString) :
    lzip_entry_fread X hist [handle zip_t, .string filename] =
      ⟨.returned 1 [handle zip_t, .string filename,
          message_value X (X.status hist (Call.zip_entry_fread zip_t (some (c_str filename))))],
        hist ++ [Call.zip_entry_fread zip_t (some (c_str filename))]⟩ := by
  simp [lzip_entry_fread, check_lzip, lua_index, handle, luaL_checkstring, lua_tostring,
    lzip_geterror_eq]

/-- C9 (as stated, refuted): no method is registered under the name `entry_read`;
the one method that reads an entry, `entry_fread`, takes a file name and gives
the caller the message of the status (nil here, for success), not the bytes of
the entry. -/
theorem no_entry_read_returning_bytes :
    registered lzip_method_map "entry_read" = none ∧
    lzip_method_map.map Prod.fst =
      ["close", "is64", "entry_opencasesensitive", "entry_openbyindex", "entry_index",
       "entry_open", "entry_name", "entry_isdir", "entry_size", "entry_uncomp_size",
       "entry_comp_size", "entry_crc32", "entry_close", "entries_total", "entry_fwrite",
       "entry_fread", "entry_write", "__gc"] ∧
    lzip_entry_fread example_library [] [handle 1, .string "out.txt".toList] =
      ⟨.returned 1 [handle 1, .string "out.txt".toList, .nil],
        [Call.zip_entry_fread 1 (some "out.txt".toList)]⟩ := by
  refine ⟨by decide, by decide, by decide⟩

/-- C9 (amended): the module table has `open` and `compress_files`; the method table
has `close`, entry open by name (two methods) and by index, entry close, entry
write, the getters (name, sizes, crc32, is-directory, index), `entries_total`,
`is64`, the finalizer, and the two file transfers `entry_fwrite` and
`entry_fread`; each name is bound to the function that makes the library call of
that operation, these are all the methods, and the read, `entry_fread`, hands the
library a file name and returns the message of the status to the caller. -/
theorem registration_tables (X : Foreign) (tables : Nat → TableEntries) (fuel : Nat)
    (hist : List Call) (p : Nat) (name : LuaString) (number : Int) :
    registered lzip_module "open" = some .lzip_open ∧
    registered lzip_module "compress_files" = some .lzipFiles ∧
    (∀ e ∈ handle_calls, ∃ f, registered lzip_method_map e.1 = some f ∧
      (f.run X tables fuel hist [handle (p + 1)]).map Run.trace =
        some (hist ++ [e.2 (p + 1)])) ∧
    (∀ e ∈ named_calls, ∃ f, registered lzip_method_map e.1 = some f ∧
      (f.run X tables fuel hist [handle (p + 1), .string name]).map Run.trace =
        some (hist ++ [e.2 (p + 1) (some (c_str name))])) ∧
    (∃ f, registered lzip_method_map "entry_openbyindex" = some f ∧
      (f.run X tables fuel hist [handle (p + 1), .number number]).map Run.trace =
        some (hist ++ [Call.zip_entry_openbyindex (p + 1) (to_long number)])) ∧
    (∃ f, registered lzip_method_map "entry_write" = some f ∧
      (f.run X tables fuel hist [handle (p + 1), .string name, .number number]).map Run.trace =
        some (hist ++ [Call.zip_entry_write (p + 1) name (to_size_t number)])) ∧
    (∀ e ∈ lzip_method_map, e.1 ∈ handle_calls.map Prod.fst ++ named_calls.map Prod.fst ++
        ["entry_openbyindex", "entry_write"]) ∧
    (lzip_entry_fread X hist [handle (p + 1), .string name]).outcome.results =
      some [message_value X
        (X.status hist (Call.zip_entry_fread (p + 1) (some (c_str name))))] := by
  refine ⟨by decide, by decide, handle_calls_trace X tables fuel hist p,
    named_calls_trace X tables fuel hist (p + 1) name,
    ⟨.lzip_entry_openbyindex, by decide, ?_⟩, ⟨.lzip_entry_write, by decide, ?_⟩, ?_, ?_⟩
  · simp [CFunction.run, (lzip_entry_open_returns_status X hist (p + 1) [] number).2.2]
  · simp [CFunction.run, lzip_entry_write_typed]
  · decide
  · rw [lzip_entry_fread_typed]
    simp [Outcome.results]

/-! ## `lzipFiles` -/

theorem dropWhile_key (pre : TableEntries) (k v : LuaValue) (rest : TableEntries)
    (hpre : ∀ e ∈ pre, e.1 ≠ k) :
    (pre ++ (k, v) :: rest).dropWhile (fun e => e.1 != k) = (k, v) :: rest := by
  induction pre with
  | nil => simp [List.dropWhile]
  | cons a pre ih =>
    have ha : a.1 ≠ k := hpre a (List.mem_cons_self _ _)
    have hb : (a.1 != k) = true := by simpa using ha
    simp only [List.cons_append, List.dropWhile, hb]
    exact ih (fun e he => hpre e (List.mem_cons_of_mem _ he))

theorem table_next_key (pre : TableEntries) (k v : LuaValue) (rest : TableEntries)
    (hpre : ∀ e ∈ pre, e.1 ≠ k) (hk : k ≠ .nil) :
    table_next (pre ++ (k, v) :: rest) k =
      match rest with
      | [] => .finished
      | (k1, v1) :: _ => .entry k1 v1 := by
  unfold table_next
  cases k with
  | nil => exact absurd rfl hk
  | boolean b => simp only [dropWhile_key pre _ v rest hpre]; cases rest <;> rfl
  | number n => simp only [dropWhile_key pre _ v rest hpre]; cases rest <;> rfl
  | string s => simp only [dropWhile_key pre _ v rest hpre]; cases rest <;> rfl
  | table id => simp only [dropWhile_key pre _ v rest hpre]; cases rest <;> rfl
  | userdata t z => simp only [dropWhile_key pre _ v rest hpre]; cases rest <;> rfl
  | other id => simp only [dropWhile_key pre _ v rest hpre]; cases rest <;> rfl

theorem lua_index_two (a : LuaValue) (id : Nat) (rest : List LuaValue) :
    lua_index (a :: .table id :: rest) 2 = some (.table id) := by
  simp [lua_index]

/-- The function `lua_next` on a stack that ends in `key`, for a table of the
store. -/
theorem lua_next_concat (tables : Nat → TableEntries) (base : List LuaValue) (key : LuaValue)
    (id index : Nat) (hidx : lua_index (base ++ [key]) index = some (.table id)) :
    lua_next tables (base ++ [key]) index =
      match table_next (tables id) key with
      | .invalid_key => .error
      | .finished => .zero base
      | .entry k v => .nonzero (base ++ [k, v]) := by
  unfold lua_next
  rw [hidx, List.getLast?_concat, List.dropLast_concat]

/-- The loop of `lzipFiles` from the key of an entry on: every later entry, all of
them file names, gets its three calls, then the archive is closed. -/
theorem lzipFiles_loop_from_key (X : Foreign) (tables : Nat → TableEntries) (Zip : Ptr)
    (path : LuaValue) (id : Nat) (extra : List LuaValue)
    (rest : List (LuaValue × LuaString)) :
    ∀ (pre : TableEntries) (k v : LuaValue) (hist : List Call) (fuel : Nat),
      tables id = pre ++ (k, v) :: file_list rest →
      ((pre ++ (k, v) :: file_list rest).map Prod.fst).Nodup →
      (∀ e ∈ pre ++ (k, v) :: file_list rest, e.1 ≠ .nil) →
      rest.length + 1 ≤ fuel →
      lzipFiles_loop X tables Zip fuel hist (path :: .table id :: (extra ++ [k])) =
        some ⟨.returned 0 (path :: .table id :: extra),
          hist ++ rest.flatMap (fun e => entry_calls Zip e.2) ++ [Call.zip_close Zip]⟩ := by
  induction rest with
  | nil =>
    intro pre k v hist fuel htab hnodup hnil hfuel
    obtain ⟨fuel, rfl⟩ : ∃ n, fuel = n + 1 := ⟨fuel - 1, by simp at hfuel; omega⟩
    have hpre : ∀ e ∈ pre, e.1 ≠ k := by
      intro e he heq
      rw [List.map_append, List.nodup_append] at hnodup
      exact hnodup.2.2 (List.mem_map_of_mem Prod.fst he) (by simp [heq])
    have hk : k ≠ .nil := hnil (k, v) (by simp)
    have hnext : lua_next tables (path :: .table id :: (extra ++ [k])) 2 =
        .zero (path :: .table id :: extra) := by
      have h := lua_next_concat tables (path :: .table id :: extra) k id 2
        (lua_index_two path id _)
      simp only [List.cons_append] at h
      rw [h, htab]
      simp only [file_list, List.map_nil]
      rw [table_next_key pre k v [] hpre hk]
    simp [lzipFiles_loop, hnext]
  | cons f rest ih =>
    intro pre k v hist fuel htab hnodup hnil hfuel
    obtain ⟨fuel, rfl⟩ : ∃ n, fuel = n + 1 := ⟨fuel - 1, by simp at hfuel; omega⟩
    have hpre : ∀ e ∈ pre, e.1 ≠ k := by
      intro e he heq
      rw [List.map_append, List.nodup_append] at hnodup
      exact hnodup.2.2 (List.mem_map_of_mem Prod.fst he) (by simp [heq])
    have hk : k ≠ .nil := hnil (k, v) (by simp)
    have hnext : lua_next tables (path :: .table id :: (extra ++ [k])) 2 =
        .nonzero (path :: .table id :: (extra ++ [f.1, .string f.2])) := by
      have h := lua_next_concat tables (path :: .table id :: extra) k id 2
        (lua_index_two path id _)
      simp only [List.cons_append] at h
      rw [h, htab]
      simp only [file_list, List.map_cons]
      rw [table_next_key pre k v _ hpre hk]
    have hlast1 : (path :: LuaValue.table id :: (extra ++ [f.1, .string f.2])).getLast? =
        some (.string f.2) := by
      rw [show path :: LuaValue.table id :: (extra ++ [f.1, .string f.2]) =
        (path :: LuaValue.table id :: (extra ++ [f.1])) ++ [.string f.2] by simp]
      exact List.getLast?_concat _
    have hdrop1 : (path :: LuaValue.table id :: (extra ++ [f.1, .string f.2])).dropLast =
        path :: LuaValue.table id :: (extra ++ [f.1]) := by
      rw [show path :: LuaValue.table id :: (extra ++ [f.1, .string f.2]) =
        (path :: LuaValue.table id :: (extra ++ [f.1])) ++ [.string f.2] by simp]
      exact List.dropLast_concat
    have htab1 : tables id = (pre ++ [(k, v)]) ++ (f.1, .string f.2) :: file_list rest := by
      rw [htab]
      simp [file_list]
    have hrec := ih (pre ++ [(k, v)]) f.1 (.string f.2)
      (hist ++ entry_calls Zip f.2) fuel htab1
      (by simpa [file_list] using hnodup)
      (by
        intro e he
        apply hnil e
        simpa [file_list] using he)
      (by simp at hfuel; omega)
    simp only [lzipFiles_loop, hnext, hlast1, hdrop1, lua_isstring, lua_tostring, if_true,
      Option.map_some']
    have hcalls : hist ++ [Call.zip_entry_open Zip (some (c_str f.2)),
        Call.zip_entry_fwrite Zip (some (c_str f.2)), Call.zip_entry_close Zip] =
        hist ++ entry_calls Zip f.2 := rfl
    rw [hcalls, hrec]
    simp [List.flatMap_cons, List.append_assoc]

/-- A function that returns 0 gives its caller no value. -/
theorem results_zero (stack : List LuaValue) : (Outcome.returned 0 stack).results = some [] := by
  have h : (0 : Int) ≤ 0 ∧ (0 : Int) ≤ (stack.length : Int) := ⟨le_refl _, by omega⟩
  simp only [Outcome.results, if_pos h, Int.toNat_zero, Nat.sub_zero, List.drop_length]

/-- The level `lzipFiles` computes from its third argument. -/
theorem lzipFiles_level (X : Foreign) (path t : LuaValue) (extra : List LuaValue) :
    (if lua_isnumber X (lua_index (path :: t :: extra) 3) then
        to_int (lua_tointeger X (lua_index (path :: t :: extra) 3))
      else X.ZIP_DEFAULT_COMPRESSION_LEVEL) = requested_level X extra := by
  have hidx : lua_index (path :: t :: extra) 3 = extra.head? := by
    cases extra <;> simp [lua_index]
  rw [hidx]
  unfold requested_level lua_isnumber lua_tointeger
  cases lua_tonumber X extra.head? <;> simp

/-- C7 (as stated, refuted): with the third argument the string `9`, which is no
number, the library is opened with the level 9 and not with the default 6; with
the third argument the number 4294967301 it is opened with the level 5, not with
the third argument; and for the two file names `a NUL x` and `a NUL y` the library
is asked twice for an entry named `a`, which is the path of neither file. -/
theorem lzipFiles_level_and_names_differ :
    lzipFiles numeric_string_library (fun _ => []) 1 []
        [.string "out.zip".toList, .table 0, .string ['9']] =
      some ⟨.returned 0 [.string "out.zip".toList, .table 0, .string ['9']],
        [Call.zip_open (some "out.zip".toList) 9 'w', Call.zip_close 1]⟩ ∧
    numeric_string_library.ZIP_DEFAULT_COMPRESSION_LEVEL = 6 ∧
    lzipFiles example_library (fun _ => []) 1 []
        [.string "out.zip".toList, .table 0, .number 4294967301] =
      some ⟨.returned 0 [.string "out.zip".toList, .table 0, .number 4294967301],
        [Call.zip_open (some "out.zip".toList) 5 'w', Call.zip_close 1]⟩ ∧
    lzipFiles example_library
        (fun _ => file_list [(.number 1, ['a', NUL, 'x']), (.number 2, ['a', NUL, 'y'])])
        3 [] [.string "out.zip".toList, .table 0] =
      some ⟨.returned 0 [.string "out.zip".toList, .table 0],
        [Call.zip_open (some "out.zip".toList) 6 'w',
         Call.zip_entry_open 1 (some ['a']),
         Call.zip_entry_fwrite 1 (some ['a']),
         Call.zip_entry_close 1,
         Call.zip_entry_open 1 (some ['a']),
         Call.zip_entry_fwrite 1 (some ['a']),
         Call.zip_entry_close 1,
         Call.zip_close 1]⟩ := by
  decide

/-- C7 (amended): for every archive path, every table whose values are all strings
and every third argument, `compress_files` (with fuel for one `lua_next` per entry
and one more) makes exactly these library calls: `zip_open` of the path with the
requested level and mode `w`; for each value in traversal order `zip_entry_open`,
`zip_entry_fwrite`, `zip_entry_close`; one `zip_close`; and it returns zero values,
leaving the stack as it found it.  The requested level is the third argument
converted to `int` when it is a number (the number itself when it fits an `int`)
or a string that converts to a number, and the default level otherwise.  The path
and every name reach the library as C strings, so the library is asked for one
entry per listed file, named by the characters of the file name before the first
NUL. -/
theorem lzipFiles_call_sequence (X : Foreign) (tables : Nat → TableEntries) (fuel : Nat)
    (hist : List Call) (path : LuaString) (id : Nat) (extra : List LuaValue)
    (files : List (LuaValue × LuaString))
    (htab : tables id = file_list files)
    (hkeys : (files.map Prod.fst).Nodup)
    (hnil : ∀ e ∈ files, e.1 ≠ .nil)
    (hfuel : files.length + 1 ≤ fuel) :
    lzipFiles X tables fuel hist (.string path :: .table id :: extra) =
      some ⟨.returned 0 (.string path :: .table id :: extra),
        hist ++ [Call.zip_open (some (c_str path)) (requested_level X extra) 'w'] ++
          files.flatMap (fun e => entry_calls
            (X.zip_open hist (some (c_str path)) (requested_level X extra) 'w') e.2) ++
          [Call.zip_close (X.zip_open hist (some (c_str path)) (requested_level X extra) 'w')]⟩ ∧
    (∀ r, lzipFiles X tables fuel hist (.string path :: .table id :: extra) = some r →
      r.outcome.results = some []) ∧
    (∀ n, extra.head? = some (.number n) →
      requested_level X extra = to_int n ∧ (in_int_range n → requested_level X extra = n)) ∧
    (∀ s n, extra.head? = some (.string s) → X.str2number s = some n →
      requested_level X extra = to_int n ∧ (in_int_range n → requested_level X extra = n)) ∧
    (lua_isnumber X extra.head? = false →
      requested_level X extra = X.ZIP_DEFAULT_COMPRESSION_LEVEL) := by
  have hrun : lzipFiles X tables fuel hist (.string path :: .table id :: extra) =
      some ⟨.returned 0 (.string path :: .table id :: extra),
        hist ++ [Call.zip_open (some (c_str path)) (requested_level X extra) 'w'] ++
          files.flatMap (fun e => entry_calls
            (X.zip_open hist (some (c_str path)) (requested_level X extra) 'w') e.2) ++
          [Call.zip_close
            (X.zip_open hist (some (c_str path)) (requested_level X extra) 'w')]⟩ := by
    unfold lzipFiles
    simp only [lzipFiles_level X (.string path) (.table id) extra]
    have h2 : lua_index (.string path :: .table id :: extra) 2 = some (.table id) :=
      lua_index_two _ _ _
    have h1 : lua_index (.string path :: .table id :: extra) 1 = some (.string path) := by
      simp [lua_index]
    simp only [h2, h1, lua_istable, lua_tostring, if_true, Option.map_some']
    obtain ⟨fuel, rfl⟩ : ∃ n, fuel = n + 1 := ⟨fuel - 1, by omega⟩
    have hnext := lua_next_concat tables (.string path :: .table id :: extra) .nil id 2
      (lua_index_two _ _ _)
    simp only [List.cons_append] at hnext ⊢
    cases files with
    | nil =>
      rw [htab] at hnext
      simp only [file_list, List.map_nil, table_next] at hnext
      simp [lzipFiles_loop, hnext]
    | cons f rest =>
      rw [htab] at hnext
      simp only [file_list, List.map_cons, table_next] at hnext
      have hlast1 : (LuaValue.string path :: LuaValue.table id ::
          (extra ++ [f.1, .string f.2])).getLast? = some (.string f.2) := by
        rw [show LuaValue.string path :: LuaValue.table id :: (extra ++ [f.1, .string f.2]) =
          (LuaValue.string path :: LuaValue.table id :: (extra ++ [f.1])) ++ [.string f.2]
          by simp]
        exact List.getLast?_concat _
      have hdrop1 : (LuaValue.string path :: LuaValue.table id ::
          (extra ++ [f.1, .string f.2])).dropLast =
          LuaValue.string path :: LuaValue.table id :: (extra ++ [f.1]) := by
        rw [show LuaValue.string path :: LuaValue.table id :: (extra ++ [f.1, .string f.2]) =
          (LuaValue.string path :: LuaValue.table id :: (extra ++ [f.1])) ++ [.string f.2]
          by simp]
        exact List.dropLast_concat
      have hrec := lzipFiles_loop_from_key X tables
        (X.zip_open hist (some (c_str path)) (requested_level X extra) 'w')
        (.string path) id extra rest [] f.1 (.string f.2)
        (hist ++ [Call.zip_open (some (c_str path)) (requested_level X extra) 'w'] ++
          entry_calls (X.zip_open hist (some (c_str path)) (requested_level X extra) 'w') f.2)
        fuel (by rw [htab]; simp [file_list])
        (by simpa [file_list] using hkeys)
        (by
          intro e he
          have he1 : e ∈ file_list (f :: rest) := by simpa [file_list] using he
          obtain ⟨g, hg, rfl⟩ := List.mem_map.1 he1
          exact hnil g hg)
        (by simp at hfuel; omega)
      simp only [lzipFiles_loop, hnext, List.cons_append, List.nil_append, hlast1, hdrop1,
        lua_isstring, lua_tostring, if_true, Option.map_some']
      have hcalls : hist ++ [Call.zip_open (some (c_str path)) (requested_level X extra) 'w'] ++
          [Call.zip_entry_open
              (X.zip_open hist (some (c_str path)) (requested_level X extra) 'w')
              (some (c_str f.2)),
            Call.zip_entry_fwrite
              (X.zip_open hist (some (c_str path)) (requested_level X extra) 'w')
              (some (c_str f.2)),
            Call.zip_entry_close
              (X.zip_open hist (some (c_str path)) (requested_level X extra) 'w')] =
          hist ++ [Call.zip_open (some (c_str path)) (requested_level X extra) 'w'] ++
            entry_calls (X.zip_open hist (some (c_str path)) (requested_level X extra) 'w')
              f.2 := rfl
      rw [hcalls, hrec]
      simp [List.flatMap_cons, List.append_assoc]
  refine ⟨hrun, ?_, ?_, ?_, ?_⟩
  · intro r hr
    rw [hrun] at hr
    cases hr
    exact results_zero _
  · intro n hn
    have h : requested_level X extra = to_int n := by
      simp [requested_level, hn, lua_tonumber]
    exact ⟨h, fun hrange => by rw [h, to_int_of_in_range n hrange]⟩
  · intro str n hs hconv
    have h : requested_level X extra = to_int n := by
      simp [requested_level, hs, lua_tonumber, hconv]
    exact ⟨h, fun hrange => by rw [h, to_int_of_in_range n hrange]⟩
  · intro hnot
    unfold lua_isnumber at hnot
    unfold requested_level
    cases hnum : lua_tonumber X extra.head? with
    | none => rfl
    | some n => simp [hnum] at hnot

/-- C7 (amended), applied to the call
`compress_files("out.zip", {"a.txt", "b.txt"}, 9)` with the example library. -/
theorem lzipFiles_call_sequence_witness :
    lzipFiles example_library
        (fun _ => file_list [(.number 1, "a.txt".toList), (.number 2, "b.txt".toList)])
        3 [] [.string "out.zip".toList, .table 0, .number 9] =
      some ⟨.returned 0 [.string "out.zip".toList, .table 0, .number 9],
        [Call.zip_open (some "out.zip".toList) 9 'w',
         Call.zip_entry_open 1 (some "a.txt".toList),
         Call.zip_entry_fwrite 1 (some "a.txt".toList),
         Call.zip_entry_close 1,
         Call.zip_entry_open 1 (some "b.txt".toList),
         Call.zip_entry_fwrite 1 (some "b.txt".toList),
         Call.zip_entry_close 1,
         Call.zip_close 1]⟩ :=
  (lzipFiles_call_sequence example_library
    (fun _ => file_list [(.number 1, "a.txt".toList), (.number 2, "b.txt".toList)])
    3 [] "out.zip".toList 0 [.number 9]
    [(.number 1, "a.txt".toList), (.number 2, "b.txt".toList)]
    rfl (by decide) (by decide) (by decide)).1

/-! ## The status-reporting methods -/

/-- A function that returns 1 after a push gives its caller the pushed value. -/
theorem results_one (stack : List LuaValue) (v : LuaValue) :
    (Outcome.returned 1 (stack ++ [v])).results = some [v] := by
  have h : (0 : Int) ≤ 1 ∧ (1 : Int) ≤ ((stack ++ [v]).length : Int) := by
    constructor
    · decide
    · simp
  simp only [Outcome.results, if_pos h]
  simp

/-- C11: for every valid handle and every status the library returns,
`entry_close` raises no error and returns exactly one value, the message of the
library for that status (nil when the library has none); the same holds for
`entry_write`, `entry_fwrite` and `entry_fread` on arguments of the right types,
whatever the calls made before and whatever further arguments follow. -/
theorem status_methods_return_message (X : Foreign) (hist : List Call) (zip_t : Ptr)
    (rest : List LuaValue) (buf name : LuaString) (number : Int) :
    (lzip_entry_close X hist (handle zip_t :: rest) =
        ⟨.returned 1 (handle zip_t :: rest ++
            [message_value X (X.status hist (Call.zip_entry_close zip_t))]),
          hist ++ [Call.zip_entry_close zip_t]⟩ ∧
      (lzip_entry_close X hist (handle zip_t :: rest)).outcome.results =
        some [message_value X (X.status hist (Call.zip_entry_close zip_t))]) ∧
    (lzip_entry_write X hist (handle zip_t :: .string buf :: .number number :: rest) =
        ⟨.returned 1 (handle zip_t :: .string buf :: .number number :: rest ++
            [message_value X
              (X.status hist (Call.zip_entry_write zip_t buf (to_size_t number)))]),
          hist ++ [Call.zip_entry_write zip_t buf (to_size_t number)]⟩ ∧
      (lzip_entry_write X hist
          (handle zip_t :: .string buf :: .number number :: rest)).outcome.results =
        some [message_value X
          (X.status hist (Call.zip_entry_write zip_t buf (to_size_t number)))]) ∧
    (lzip_entry_fwrite X hist (handle zip_t :: .string name :: rest) =
        ⟨.returned 1 (handle zip_t :: .string name :: rest ++
            [message_value X
              (X.status hist (Call.zip_entry_fwrite zip_t (some (c_str name))))]),
          hist ++ [Call.zip_entry_fwrite zip_t (some (c_str name))]⟩ ∧
      (lzip_entry_fwrite X hist (handle zip_t :: .string name :: rest)).outcome.results =
        some [message_value X
          (X.status hist (Call.zip_entry_fwrite zip_t (some (c_str name))))]) ∧
    (lzip_entry_fread X hist (handle zip_t :: .string name :: rest) =
        ⟨.returned 1 (handle zip_t :: .string name :: rest ++
            [message_value X
              (X.status hist (Call.zip_entry_fread zip_t (some (c_str name))))]),
          hist ++ [Call.zip_entry_fread zip_t (some (c_str name))]⟩ ∧
      (lzip_entry_fread X hist (handle zip_t :: .string name :: rest)).outcome.results =
        some [message_value X
          (X.status hist (Call.zip_entry_fread zip_t (some (c_str name))))]) := by
  have hclose : lzip_entry_close X hist (handle zip_t :: rest) =
      ⟨.returned 1 (handle zip_t :: rest ++
          [message_value X (X.status hist (Call.zip_entry_close zip_t))]),
        hist ++ [Call.zip_entry_close zip_t]⟩ := by
    simp [lzip_entry_close, check_lzip, lua_index, handle, lzip_geterror_eq]
  have hwrite : lzip_entry_write X hist
        (handle zip_t :: .string buf :: .number number :: rest) =
      ⟨.returned 1 (handle zip_t :: .string buf :: .number number :: rest ++
          [message_value X
            (X.status hist (Call.zip_entry_write zip_t buf (to_size_t number)))]),
        hist ++ [Call.zip_entry_write zip_t buf (to_size_t number)]⟩ := by
    simp [lzip_entry_write, check_lzip, lua_index, handle, luaL_checkstring,
      luaL_checknumber, lua_tostring, lua_tonumber, lzip_geterror_eq]
  have hfwrite : lzip_entry_fwrite X hist (handle zip_t :: .string name :: rest) =
      ⟨.returned 1 (handle zip_t :: .string name :: rest ++
          [message_value X
            (X.status hist (Call.zip_entry_fwrite zip_t (some (c_str name))))]),
        hist ++ [Call.zip_entry_fwrite zip_t (some (c_str name))]⟩ := by
    simp [lzip_entry_fwrite, check_lzip, lua_index, handle, luaL_checkstring,
      lua_tostring, lzip_geterror_eq]
  have hfread : lzip_entry_fread X hist (handle zip_t :: .string name :: rest) =
      ⟨.returned 1 (handle zip_t :: .string name :: rest ++
          [message_value X
            (X.status hist (Call.zip_entry_fread zip_t (some (c_str name))))]),
        hist ++ [Call.zip_entry_fread zip_t (some (c_str name))]⟩ := by
    simp [lzip_entry_fread, check_lzip, lua_index, handle, luaL_checkstring,
      lua_tostring, lzip_geterror_eq]
  refine ⟨⟨hclose, ?_⟩, ⟨hwrite, ?_⟩, ⟨hfwrite, ?_⟩, ⟨hfread, ?_⟩⟩
  · rw [hclose]
    exact results_one _ _
  · rw [hwrite]
    exact results_one _ _
  · rw [hfwrite]
    exact results_one _ _
  · rw [hfread]
    exact results_one _ _

/-! ## The boolean getters -/

/-- The boolean getters push true for every nonzero status of the library. -/
theorem boolean_getters_push_nonzero (X : Foreign) (hist : List Call) (zip_t : Ptr) :
    lzip_entry_isdir X hist [handle zip_t] =
      ⟨.returned 1 [handle zip_t, .boolean (X.status hist (Call.zip_entry_isdir zip_t) != 0)],
        hist ++ [Call.zip_entry_isdir zip_t]⟩ ∧
    lzip_is64 X hist [handle zip_t] =
      ⟨.returned 1 [handle zip_t, .boolean (X.status hist (Call.zip_is64 zip_t) != 0)],
        hist ++ [Call.zip_is64 zip_t]⟩ := by
  simp [lzip_entry_isdir, lzip_is64, check_lzip, lua_index, handle, lua_pushboolean]

/-- C12 (the code at the failing input): on a handle for which the library answers
`zip_entry_isdir` and `zip_is64` with the negative error status -1, `entry_isdir`
and `is64` both return true, since `lua_pushboolean` takes every nonzero `int`
for true. -/
theorem boolean_getters_true_on_error :
    no_entry_library.status [] (Call.zip_entry_isdir 1) = -1 ∧
    no_entry_library.status [] (Call.zip_is64 1) = -1 ∧
    lzip_entry_isdir no_entry_library [] [handle 1] =
      ⟨.returned 1 [handle 1, .boolean true], [Call.zip_entry_isdir 1]⟩ ∧
    (lzip_entry_isdir no_entry_library [] [handle 1]).outcome.results =
      some [.boolean true] ∧
    lzip_is64 no_entry_library [] [handle 1] =
      ⟨.returned 1 [handle 1, .boolean true], [Call.zip_is64 1]⟩ ∧
    (lzip_is64 no_entry_library [] [handle 1]).outcome.results = some [.boolean true] := by
  decide

/-! ## The traversal of `lzipFiles` on values that are not strings -/

/-- C13 (the code at the failing input): for the call
`compress_files("out.zip", {true, "a.txt"})` the first `lua_next` pushes the key 1
and the value `true`; the value is no string, so it is not popped and the next
`lua_next` takes `true` for the key, which is not in the table: the call raises
`invalid key to 'next'` after `zip_open`, the file name `a.txt` is never visited
and `zip_close` is never called.  More fuel changes nothing. -/
theorem lzipFiles_non_string_value_breaks_traversal :
    lua_next (fun _ => mixed_table) [.string "out.zip".toList, .table 0, .nil] 2 =
      .nonzero [.string "out.zip".toList, .table 0, .number 1, .boolean true] ∧
    lua_isstring (some (.boolean true)) = false ∧
    lua_next (fun _ => mixed_table)
        [.string "out.zip".toList, .table 0, .number 1, .boolean true] 2 = .error ∧
    (∀ fuel, lzipFiles example_library (fun _ => mixed_table) (fuel + 2) []
        [.string "out.zip".toList, .table 0] =
      some ⟨.raised (.msg "invalid key to 'next'"),
        [Call.zip_open (some "out.zip".toList) 6 'w']⟩) := by
  refine ⟨by decide, by decide, by decide, ?_⟩
  intro fuel
  have h1 : lua_next (fun _ => mixed_table) [.string "out.zip".toList, .table 0, .nil] 2 =
      .nonzero [.string "out.zip".toList, .table 0, .number 1, .boolean true] := by decide
  have h2 : lua_next (fun _ => mixed_table)
      [.string "out.zip".toList, .table 0, .number 1, .boolean true] 2 = .error := by decide
  have hlevel : (if lua_isnumber example_library
        (lua_index [LuaValue.string "out.zip".toList, LuaValue.table 0] 3) = true then
        to_int (lua_tointeger example_library
          (lua_index [LuaValue.string "out.zip".toList, LuaValue.table 0] 3))
      else example_library.ZIP_DEFAULT_COMPRESSION_LEVEL) = 6 := by decide
  have hname : (lua_tostring example_library
      (lua_index [LuaValue.string "out.zip".toList, LuaValue.table 0] 1)).map c_str =
      some "out.zip".toList := by decide
  have htable : lua_istable (lua_index [LuaValue.string "out.zip".toList, LuaValue.table 0] 2)
      = true := by decide
  have hzip : example_library.zip_open [] (some "out.zip".toList) 6 'w' = 1 := by decide
  simp only [lzipFiles, hlevel, hname, htable, if_true, hzip, List.cons_append,
    List.nil_append, lzipFiles_loop, h1, h2]
  simp [lua_isstring, next_message]

/-! ## The byte count of `lzip_entry_write` -/

/-- C15 (the code at the failing input): for the call `entry_write("hi", 100)` the
library is asked to write 100 bytes from the buffer of the two-byte string `hi`;
the count is the third argument, and the length of the string plays no part. -/
theorem lzip_entry_write_count_exceeds_buffer :
    (lzip_entry_write example_library []
        [handle 1, .string "hi".toList, .number 100]).trace =
      [Call.zip_entry_write 1 "hi".toList 100] ∧
    "hi".toList.length = 2 ∧
    ¬ (100 ≤ "hi".toList.length) := by
  decide

/-! ## Validation before effects in `lzip_open` -/

/-- Every run of `lzip_open` either makes no library call, or makes the one call
of `zip_open` and then raises the error of a failed open or returns. -/
theorem lzip_open_trace_cases (X : Foreign) (hist : List Call) (stack : List LuaValue) :
    (lzip_open X hist stack).trace = hist ∨
    ((lzip_open X hist stack).outcome = .raised (.msg open_message) ∨
      ∃ n s, (lzip_open X hist stack).outcome = .returned n s) := by
  unfold lzip_open
  dsimp only
  repeat' split
  all_goals first
    | exact Or.inl rfl
    | exact Or.inr (Or.inl rfl)
    | exact Or.inr (Or.inr ⟨_, _, rfl⟩)

/-- The function `lzip_open_counting` runs as `lzip_open` does. -/
theorem lzip_open_counting_run (X : Foreign) (hist : List Call) (stack : List LuaValue) :
    (lzip_open_counting X hist stack).run = lzip_open X hist stack := by
  unfold lzip_open_counting lzip_open
  dsimp only
  repeat' split
  all_goals rfl

/-- Every run of `lzip_open` either creates no userdata, or creates one and then
raises the error of a failed open or returns. -/
theorem lzip_open_counting_cases (X : Foreign) (hist : List Call) (stack : List LuaValue) :
    (lzip_open_counting X hist stack).userdata_created = 0 ∨
    ((lzip_open_counting X hist stack).run.outcome = .raised (.msg open_message) ∨
      ∃ n s, (lzip_open_counting X hist stack).run.outcome = .returned n s) := by
  unfold lzip_open_counting
  dsimp only
  repeat' split
  all_goals first
    | exact Or.inl rfl
    | exact Or.inr (Or.inl rfl)
    | exact Or.inr (Or.inr ⟨_, _, rfl⟩)

/-- A userdata is created in exactly the runs of `lzip_open` that call
`zip_open`. -/
theorem lzip_open_counting_trace (X : Foreign) (hist : List Call) (stack : List LuaValue) :
    ((lzip_open_counting X hist stack).userdata_created = 0 ∧
      (lzip_open_counting X hist stack).run.trace = hist) ∨
    ((lzip_open_counting X hist stack).userdata_created = 1 ∧
      ∃ c, (lzip_open_counting X hist stack).run.trace = hist ++ [c]) := by
  unfold lzip_open_counting
  dsimp only
  repeat' split
  all_goals first
    | exact Or.inl ⟨rfl, rfl⟩
    | exact Or.inr ⟨rfl, _, rfl⟩

/-- The run of `lzip_open_counting` on three arguments of the right types. -/
theorem lzip_open_counting_typed (X : Foreign) (hist : List Call) (zipname : LuaString)
    (number : Int) (mode : LuaString) :
    lzip_open_counting X hist [.string zipname, .number number, .string mode] =
      ⟨lzip_open X hist [.string zipname, .number number, .string mode],
        if c_str mode ∈ valid_modes then 1 else 0⟩ := by
  have hrun := lzip_open_counting_run X hist [.string zipname, .number number, .string mode]
  have hcount : (lzip_open_counting X hist
      [.string zipname, .number number, .string mode]).userdata_created =
      if c_str mode ∈ valid_modes then 1 else 0 := by
    have hcases := lzip_open_counting_trace X hist
      [.string zipname, .number number, .string mode]
    rw [hrun] at hcases
    by_cases hm : c_str mode ∈ valid_modes
    · rw [lzip_open_valid_trace X hist zipname number mode hm] at hcases
      rcases hcases with ⟨_, h⟩ | ⟨h, _⟩
      · simp at h
      · simp [hm, h]
    · have htr : (lzip_open X hist [.string zipname, .number number, .string mode]).trace =
          hist := by
        rw [lzip_open_typed]
        simp [hm]
      rw [htr] at hcases
      rcases hcases with ⟨h, _⟩ | ⟨_, c, h⟩
      · simp [hm, h]
      · simp at h
  cases hrc : lzip_open_counting X hist [.string zipname, .number number, .string mode] with
  | mk run created =>
    rw [hrc] at hrun hcount
    simp only at hrun hcount
    rw [hrun, hcount]

/-- C14: whenever `open` rejects its arguments (an invalid-argument error), the
history of library calls is unchanged, so `zip_open` has not been called, no
userdata has been created (the count of `lua_newuserdata` calls is 0), and the
caller receives nothing; and each of the three causes, a wrong argument count, a
mode whose length is not 1 and a mode character outside `w`, `r`, `a`, `d`,
gives exactly the run that raises and has no other effect.  The count is that of
the same run, and it is 1 as soon as the validation has passed. -/
theorem lzip_open_rejected_before_effects (X : Foreign) (hist : List Call)
    (stack : List LuaValue) (zipname : LuaString) (number : Int) (mode : LuaString) :
    (invalid_argument (lzip_open X hist stack).outcome →
      (lzip_open X hist stack).trace = hist ∧
      (lzip_open X hist stack).outcome.results = none) ∧
    (stack.length ≠ 3 →
      lzip_open X hist stack = ⟨.raised (.msg usage_message), hist⟩) ∧
    (strlen mode ≠ 1 →
      lzip_open X hist [.string zipname, .number number, .string mode] =
        ⟨.raised (.msg mode_message), hist⟩) ∧
    (char_at_0 mode ∉ ['w', 'r', 'a', 'd'] →
      lzip_open X hist [.string zipname, .number number, .string mode] =
        ⟨.raised (.msg mode_message), hist⟩) ∧
    (lzip_open_counting X hist stack).run = lzip_open X hist stack ∧
    (invalid_argument (lzip_open X hist stack).outcome →
      (lzip_open_counting X hist stack).userdata_created = 0) ∧
    (stack.length ≠ 3 →
      lzip_open_counting X hist stack = ⟨⟨.raised (.msg usage_message), hist⟩, 0⟩) ∧
    (strlen mode ≠ 1 →
      lzip_open_counting X hist [.string zipname, .number number, .string mode] =
        ⟨⟨.raised (.msg mode_message), hist⟩, 0⟩) ∧
    (char_at_0 mode ∉ ['w', 'r', 'a', 'd'] →
      lzip_open_counting X hist [.string zipname, .number number, .string mode] =
        ⟨⟨.raised (.msg mode_message), hist⟩, 0⟩) ∧
    (c_str mode ∈ valid_modes →
      (lzip_open_counting X hist
        [.string zipname, .number number, .string mode]).userdata_created = 1) := by
  have hd := messages_distinct
  have hstrlen : strlen mode ≠ 1 → ¬ c_str mode ∈ valid_modes :=
    fun hlen hm => hlen ((valid_mode_iff mode).1 hm).1
  have hchar : char_at_0 mode ∉ ['w', 'r', 'a', 'd'] → ¬ c_str mode ∈ valid_modes := by
    intro hc hm
    apply ((valid_mode_iff mode).1 hm).2
    simp only [List.mem_cons, List.mem_singleton, List.not_mem_nil, or_false, not_or] at hc
    exact ⟨hc.1, hc.2.1, hc.2.2.1, hc.2.2.2⟩
  have hno : ∀ o : Outcome, invalid_argument o →
      o ≠ .raised (.msg open_message) ∧ ∀ n s, o ≠ .returned n s := by
    intro o hinv
    unfold invalid_argument at hinv
    constructor
    · intro h
      rw [h] at hinv
      rcases hinv with h1 | h1
      · injection h1 with h1; injection h1 with h1; exact hd.1 h1.symm
      · injection h1 with h1; injection h1 with h1; exact hd.2 h1.symm
    · intro n s h
      rw [h] at hinv
      rcases hinv with h1 | h1 <;> cases h1
  refine ⟨?_, ?_, ?_, ?_, lzip_open_counting_run X hist stack, ?_, ?_, ?_, ?_, ?_⟩
  · intro hinv
    have hres : (lzip_open X hist stack).outcome.results = none := by
      unfold invalid_argument at hinv
      rcases hinv with h | h <;> rw [h] <;> rfl
    refine ⟨?_, hres⟩
    rcases lzip_open_trace_cases X hist stack with h | h | ⟨n, s, h⟩
    · exact h
    · exact absurd h (hno _ hinv).1
    · exact absurd h ((hno _ hinv).2 n s)
  · intro hlen
    simp [lzip_open, lua_gettop, hlen]
  · intro hlen
    rw [lzip_open_typed]
    simp [hstrlen hlen]
  · intro hc
    rw [lzip_open_typed]
    simp [hchar hc]
  · intro hinv
    rw [← lzip_open_counting_run] at hinv
    rcases lzip_open_counting_cases X hist stack with h | h | ⟨n, s, h⟩
    · exact h
    · exact absurd h (hno _ hinv).1
    · exact absurd h ((hno _ hinv).2 n s)
  · intro hlen
    simp [lzip_open_counting, lua_gettop, hlen]
  · intro hlen
    rw [lzip_open_counting_typed, lzip_open_typed]
    simp [hstrlen hlen]
  · intro hc
    rw [lzip_open_counting_typed, lzip_open_typed]
    simp [hchar hc]
  · intro hm
    rw [lzip_open_counting_typed]
    simp [hm]

/-- C14, applied to a call with two arguments, a call with the mode `rw` and a call
with the mode `x`: each is rejected with the history unchanged and no userdata
created; and to a call with the mode `r`, which creates one. -/
theorem lzip_open_rejected_before_effects_witness :
    (lzip_open example_library [Call.zip_close 1]
        [.string "a.zip".toList, .number 6]).trace = [Call.zip_close 1] ∧
    lzip_open example_library [] [.string "a.zip".toList, .number 6] =
      ⟨.raised (.msg usage_message), []⟩ ∧
    lzip_open example_library [] [.string "a.zip".toList, .number 6, .string ['r', 'w']] =
      ⟨.raised (.msg mode_message), []⟩ ∧
    lzip_open example_library [] [.string "a.zip".toList, .number 6, .string ['x']] =
      ⟨.raised (.msg mode_message), []⟩ ∧
    (lzip_open_counting example_library [Call.zip_close 1]
        [.string "a.zip".toList, .number 6]).userdata_created = 0 ∧
    lzip_open_counting example_library []
        [.string "a.zip".toList, .number 6, .string ['r', 'w']] =
      ⟨⟨.raised (.msg mode_message), []⟩, 0⟩ ∧
    lzip_open_counting example_library []
        [.string "a.zip".toList, .number 6, .string ['x']] =
      ⟨⟨.raised (.msg mode_message), []⟩, 0⟩ ∧
    (lzip_open_counting example_library []
        [.string "a.zip".toList, .number 6, .string ['r']]).userdata_created = 1 :=
  ⟨((lzip_open_rejected_before_effects example_library [Call.zip_close 1]
      [.string "a.zip".toList, .number 6] [] 0 []).1 (by decide)).1,
   (lzip_open_rejected_before_effects example_library []
      [.string "a.zip".toList, .number 6] [] 0 []).2.1 (by decide),
   (lzip_open_rejected_before_effects example_library []
      [] "a.zip".toList 6 ['r', 'w']).2.2.1 (by decide),
   (lzip_open_rejected_before_effects example_library []
      [] "a.zip".toList 6 ['x']).2.2.2.1 (by decide),
   (lzip_open_rejected_before_effects example_library [Call.zip_close 1]
      [.string "a.zip".toList, .number 6] [] 0 []).2.2.2.2.2.1 (by decide),
   (lzip_open_rejected_before_effects example_library []
      [] "a.zip".toList 6 ['r', 'w']).2.2.2.2.2.2.2.1 (by decide),
   (lzip_open_rejected_before_effects example_library []
      [] "a.zip".toList 6 ['x']).2.2.2.2.2.2.2.2.1 (by decide),
   (lzip_open_rejected_before_effects example_library []
      [] "a.zip".toList 6 ['r']).2.2.2.2.2.2.2.2.2 (by decide)⟩

end Lzip
